import Mathlib

/-!
Verification development for the ytpl-ytsr-go repository: a shallow
embedding of the playlist/search extraction engine (packages ytpl and
ytsr) and proofs about its text extraction, item decoding, continuation
location, pagination, ID resolution, retry logic and session cache.

The raw upstream data (Go values of type interface{} produced by
encoding/json) is modelled by the JSON tree type below.  Go maps
(map[string]interface{}) are modelled as ordered association lists; the
list order stands for the (unspecified, randomized) iteration order of a
Go map, so any claim of order-independence must hold for every list
order.  Go JSON numbers (float64) are modelled as integers, since every
numeric field the code reads (thumbnail widths and heights) is integral.
Go panics (failed unchecked type assertions) are modelled by the
GoResult type.
-/

/-- Model of a decoded JSON value (Go interface{} after json.Unmarshal). -/
inductive JSON where
  | null : JSON
  | bool (b : Bool) : JSON
  | num (n : Int) : JSON
  | str (s : String) : JSON
  | arr (elems : List JSON) : JSON
  | obj (fields : List (String × JSON)) : JSON

/-- Result of a Go computation that may panic (failed unchecked type assertion). -/
inductive GoResult (α : Type) where
  | panicked : GoResult α
  | value (a : α) : GoResult α
deriving DecidableEq

/-- Functorial map over a non-panicking result. -/
def GoResult.map {α β : Type} (f : α → β) : GoResult α → GoResult β
  | .panicked => .panicked
  | .value a => .value (f a)

/-- Go map lookup: first binding of the key, if any (Go maps have unique keys). -/
def lookupJ (fields : List (String × JSON)) (k : String) : Option JSON :=
  (fields.find? fun kv => kv.1 = k).map fun kv => kv.2

/-- Go checked type assertion value.(map[string]interface{}) on a field. -/
def getObjField (fields : List (String × JSON)) (k : String) : Option (List (String × JSON)) :=
  match lookupJ fields k with
  | some (.obj m) => some m
  | _ => none

/-- Go checked type assertion value.(string) on a field. -/
def getStrField (fields : List (String × JSON)) (k : String) : Option String :=
  match lookupJ fields k with
  | some (.str s) => some s
  | _ => none

/-- Go checked type assertion value.([]interface{}) on a field. -/
def getArrField (fields : List (String × JSON)) (k : String) : Option (List JSON) :=
  match lookupJ fields k with
  | some (.arr xs) => some xs
  | _ => none

/-- Prefix test on character lists (model of the corresponding string scan). -/
def listStarts : List Char → List Char → Bool
  | [], _ => true
  | _ :: _, [] => false
  | p :: ps, c :: cs => p = c && listStarts ps cs

/-- Substring occurrence test on character lists. -/
def listHasSub (pat : List Char) : List Char → Bool
  | [] => listStarts pat []
  | c :: cs => listStarts pat (c :: cs) || listHasSub pat cs

/-- Model of Go strings.Contains. -/
def strContains (s pat : String) : Bool :=
  listHasSub pat.toList s.toList

/-- Decimal value of a digit list (most significant first). -/
def digitsToNat (cs : List Char) : Nat :=
  cs.foldl (fun a c => a * 10 + (c.toNat - 48)) 0

/-- Digit-run part of the Atoi model: the (possibly negated) value of a
nonempty all-digit list, a parse error otherwise or on 64-bit overflow. -/
def atoiDigits (neg : Bool) (ds : List Char) : Option Int :=
  if ds.isEmpty then none
  else if ds.all Char.isDigit then
    if neg then
      if digitsToNat ds ≤ 2 ^ 63 then some (-(digitsToNat ds : Int)) else none
    else
      if digitsToNat ds ≤ 2 ^ 63 - 1 then some ((digitsToNat ds : Int)) else none
  else none

/-- Model of Go strconv.Atoi on a character list: optional sign followed by a
nonempty run of ASCII digits; out-of-range (64-bit int) input is a parse error. -/
def atoiList (cs : List Char) : Option Int :=
  atoiDigits (cs.head? == some '-')
    (if cs.head? == some '+' || cs.head? == some '-' then cs.tail else cs)

/-- Model of Go strconv.Atoi. -/
def atoi (s : String) : Option Int :=
  atoiList s.toList

namespace ytpl

/-- Text of one run entry inside a runs list (src/pkg/ytpl/parse.go lines 25-31):
a non-object run, or a run without a string text field, contributes nothing. -/
def runText : JSON → String
  | .obj runMap =>
    match lookupJ runMap "text" with
    | some (.str t) => t
    | _ => ""
  | _ => ""

/-- parseText (src/pkg/ytpl/parse.go lines 11-36): nil gives "", a plain string
gives itself, an object gives its simpleText string if present, else the
concatenation of its runs texts, else ""; every other shape gives "". -/
def parseText : JSON → String
  | .str v => v
  | .obj v =>
    match lookupJ v "simpleText" with
    | some (.str simpleText) => simpleText
    | _ =>
      match lookupJ v "runs" with
      | some (.arr runs) => String.join (runs.map runText)
      | _ => ""
  | _ => ""

/-- Character kept by the regexp deletion [^\d,.] of parseNumFromText. -/
def isKeptChar (c : Char) : Bool :=
  c.isDigit || c = ',' || c = '.'

/-- parseNumFromText (src/pkg/ytpl/parse.go lines 38-51): extract the text,
delete every character that is not a digit, comma or period, delete the
commas, then strconv.Atoi with parse failure giving 0. -/
def parseNumFromText (textObj : JSON) : Int :=
  let text := parseText textObj
  if text = "" then 0
  else
    let numStr := (text.toList.filter isKeptChar).filter fun c => c ≠ ','
    match atoiList numStr with
    | some num => num
    | none => 0

/-- Reference function stated by the spec for the Numeric Extractor
(spec.md section 4.2): run the Text Extractor, delete every character that
is not a digit, comma, or period, then delete all commas, then parse the
remainder as an integer with any parse failure yielding 0. -/
def numExtractorSpec (textObj : JSON) : Int :=
  let text := parseText textObj
  let numStr := (text.toList.filter isKeptChar).filter fun c => c ≠ ','
  match atoiList numStr with
  | some num => num
  | none => 0

/-- PlaylistItem record (src/pkg/ytpl/types.go). -/
structure PlaylistItem where
  ID : String := ""
  Title : String := ""
  URL : String := ""
  Duration : String := ""
  Thumbnail : String := ""
  Author : String := ""
  AuthorURL : String := ""
  IsLiveNow : Bool := false
  IsUpcoming : Bool := false
  IsPremiere : Bool := false
deriving DecidableEq

/-- Thumbnail record (src/pkg/ytpl/types.go); widths and heights are the
integral values of the float64 fields. -/
structure Thumbnail where
  URL : String
  Width : Int
  Height : Int
deriving DecidableEq

/-- Field population of parseItem (src/pkg/ytpl/parse.go lines 71-98) once a
renderer object has been found: every field is independently optional. -/
def fillPlaylistItem (renderer : List (String × JSON)) : PlaylistItem :=
  let idPart : PlaylistItem :=
    match getStrField renderer "videoId" with
    | some videoID =>
      { ID := videoID, URL := "https://www.youtube.com/watch?v=" ++ videoID }
    | none => {}
  let withTitle := { idPart with Title := parseText ((lookupJ renderer "title").getD .null) }
  let withThumb :=
    match getObjField renderer "thumbnail" with
    | some thumbnails =>
      match getArrField thumbnails "thumbnails" with
      | some thumbnailList =>
        if thumbnailList.isEmpty then withTitle
        else
          match thumbnailList.head? with
          | some (.obj thumb) =>
            match getStrField thumb "url" with
            | some url => { withTitle with Thumbnail := url }
            | none => withTitle
          | _ => withTitle
      | none => withTitle
    | none => withTitle
  let withDuration :=
    match getObjField renderer "lengthText" with
    | some lengthText => { withThumb with Duration := parseText (.obj lengthText) }
    | none => withThumb
  match getObjField renderer "ownerText" with
  | some ownerText => { withDuration with Author := parseText (.obj ownerText) }
  | none => withDuration

/-- parseItem (src/pkg/ytpl/parse.go lines 53-99): scan the object's keys in
iteration order for the first key containing the substring "VideoRenderer";
if none is found, or the matched value is not an object, decode to nothing. -/
def parseItem (rawItem : JSON) : Option PlaylistItem :=
  match rawItem with
  | .obj itemMap =>
    match itemMap.find? fun kv => strContains kv.1 "VideoRenderer" with
    | some kv =>
      match kv.2 with
      | .obj renderer => some (fillPlaylistItem renderer)
      | _ => none
    | none => none
  | _ => none

/-- The direct token check findTokenRecursively performs on an object node
(src/pkg/ytpl/utils.go lines 94-98): the token string under its own
continuationCommand object, if both typed lookups succeed. -/
def ownToken (v : List (String × JSON)) : Option String :=
  match getObjField v "continuationCommand" with
  | some continuationCommand => getStrField continuationCommand "token"
  | none => none

mutual

/-- findTokenRecursively (src/pkg/ytpl/utils.go lines 91-112): at an object,
return the node's own continuationCommand token string when present (even
when it is the empty string, and without visiting the node's children);
otherwise take the first nonempty result over the object's values in
iteration order; at a sequence, the first nonempty result over its elements
in order; "" on every other shape and when nothing is found. -/
def findTokenRecursively : JSON → String
  | .obj v =>
    match ownToken v with
    | some token => token
    | none => findTokenPairs v
  | .arr items => findTokenList items
  | _ => ""

/-- Value loop of findTokenRecursively over an object's bindings. -/
def findTokenPairs : List (String × JSON) → String
  | [] => ""
  | kv :: rest =>
    let result := findTokenRecursively kv.2
    if result ≠ "" then result else findTokenPairs rest

/-- Element loop of findTokenRecursively over a sequence. -/
def findTokenList : List JSON → String
  | [] => ""
  | item :: rest =>
    let result := findTokenRecursively item
    if result ≠ "" then result else findTokenList rest

end

mutual

/-- All continuationCommand.token string values in a subtree, in unpruned
depth-first order (the node's own pair before its children); used to state
what getContinuationToken can and cannot return. -/
def tokensInDFS : JSON → List String
  | .obj v =>
    (match ownToken v with
     | some token => [token]
     | none => []) ++ tokensInDFSPairs v
  | .arr items => tokensInDFSList items
  | _ => []

/-- tokensInDFS over an object's bindings. -/
def tokensInDFSPairs : List (String × JSON) → List String
  | [] => []
  | kv :: rest => tokensInDFS kv.2 ++ tokensInDFSPairs rest

/-- tokensInDFS over a sequence. -/
def tokensInDFSList : List JSON → List String
  | [] => []
  | item :: rest => tokensInDFS item ++ tokensInDFSList rest

end

mutual

/-- The token candidates findTokenRecursively actually inspects, in order:
a node's own continuationCommand token string (even empty) hides the node's
entire subtree; elsewhere the traversal descends into object values and
sequence elements in order. -/
def prunedTokens : JSON → List String
  | .obj v =>
    match ownToken v with
    | some token => [token]
    | none => prunedTokensPairs v
  | .arr items => prunedTokensList items
  | _ => []

/-- prunedTokens over an object's bindings. -/
def prunedTokensPairs : List (String × JSON) → List String
  | [] => []
  | kv :: rest => prunedTokens kv.2 ++ prunedTokensPairs rest

/-- prunedTokens over a sequence. -/
def prunedTokensList : List JSON → List String
  | [] => []
  | item :: rest => prunedTokens item ++ prunedTokensList rest

end

/-- First element of a token candidate list that is nonempty, "" if none. -/
def firstNonempty (l : List String) : String :=
  (l.filter fun s => s ≠ "").headD ""

/-- Direct shape 1 of getContinuationToken (src/pkg/ytpl/utils.go lines
55-61): continuationEndpoint.continuationCommand.token. -/
def directShape1 (renderer : List (String × JSON)) : Option String :=
  match getObjField renderer "continuationEndpoint" with
  | some continuationEndpoint =>
    match getObjField continuationEndpoint "continuationCommand" with
    | some continuationCommand => getStrField continuationCommand "token"
    | none => none
  | none => none

/-- Direct shape 2 (lines 63-73):
button.buttonRenderer.command.continuationCommand.token. -/
def directShape2 (renderer : List (String × JSON)) : Option String :=
  match getObjField renderer "button" with
  | some button =>
    match getObjField button "buttonRenderer" with
    | some buttonRenderer =>
      match getObjField buttonRenderer "command" with
      | some command =>
        match getObjField command "continuationCommand" with
        | some continuationCommand => getStrField continuationCommand "token"
        | none => none
      | none => none
    | none => none
  | none => none

/-- Direct shape 3 (lines 75-81): trigger.continuationCommand.token. -/
def directShape3 (renderer : List (String × JSON)) : Option String :=
  match getObjField renderer "trigger" with
  | some trigger =>
    match getObjField trigger "continuationCommand" with
    | some continuationCommand => getStrField continuationCommand "token"
    | none => none
  | none => none

/-- getContinuationToken (src/pkg/ytpl/utils.go lines 40-89): require a
continuationItemRenderer object, try the three direct shapes in order, then
fall back to the recursive scan. -/
def getContinuationToken (item : List (String × JSON)) : String :=
  match getObjField item "continuationItemRenderer" with
  | none => ""
  | some renderer =>
    match directShape1 renderer with
    | some token => token
    | none =>
      match directShape2 renderer with
      | some token => token
      | none =>
        match directShape3 renderer with
        | some token => token
        | none =>
          let token := findTokenRecursively (.obj renderer)
          if token ≠ "" then token else ""


/-- findNextToken: the continuation-token scan over the raw page items
(src/pkg/ytpl/parse.go lines 181-194 and 615-628): the first object item
carrying a continuationItemRenderer key whose extracted token is nonempty
provides the next token; an item whose extraction gives "" is passed over. -/
def findNextToken : List JSON → String
  | [] => ""
  | item :: rest =>
    match item with
    | .obj itemMap =>
      let nextToken :=
        if (lookupJ itemMap "continuationItemRenderer").isSome then
          getContinuationToken itemMap
        else ""
      if nextToken ≠ "" then nextToken else findNextToken rest
    | _ => findNextToken rest

/-- The per-page decode loop (src/pkg/ytpl/parse.go lines 169-177 and
604-611): raw entries are consumed by index up to the remaining budget (an
undecodable entry inside the window occupies a budget position), and the
decodable ones inside the window are kept. -/
def decodeWindow (limit : Nat) (wrapper : List JSON) : List PlaylistItem :=
  (wrapper.take limit).filterMap parseItem

/-- extractPageItems (src/pkg/ytpl/parse.go lines 149-167): locate
onResponseReceivedActions[0].appendContinuationItemsAction.continuationItems
in a continuation response, with [] on any shape mismatch. -/
def extractPageItems (jsonResp : List (String × JSON)) : List JSON :=
  match getArrField jsonResp "onResponseReceivedActions" with
  | some actions =>
    if actions.isEmpty then []
    else
      match actions.head? with
      | some (.obj action) =>
        match getObjField action "appendContinuationItemsAction" with
        | some appendAction =>
          match getArrField appendAction "continuationItems" with
          | some wrapper => wrapper
          | none => []
        | none => []
      | _ => []
  | none => []

/-- parsePage2 (src/pkg/ytpl/parse.go lines 138-207) with the network
abstracted: the successive continuation responses are supplied as a list and
consumed one per fetch (an exhausted list models a failing fetch, which in Go
aborts pagination keeping the items accumulated so far).  The result groups
the items decoded from each fetched page in fetch order; the Go code returns
their concatenation, decrementing opts.Limit by each page's decoded count. -/
def parsePage2Batches (limit : Nat) : List (List (String × JSON)) → List (List PlaylistItem)
  | [] => []
  | resp :: rest =>
    let wrapper := extractPageItems resp
    let parsedItems := decodeWindow limit wrapper
    let limit2 := limit - parsedItems.length
    let nextToken := findNextToken wrapper
    if nextToken = "" ∨ limit2 = 0 then [parsedItems]
    else parsedItems :: parsePage2Batches limit2 rest

/-- First-page decode plus pagination of getPlaylist (src/pkg/ytpl/parse.go
lines 604-641), network abstracted as in parsePage2Batches. -/
def getPlaylistBatches (limit : Nat) (rawVideoList : List JSON)
    (pages : List (List (String × JSON))) : List (List PlaylistItem) :=
  let first := decodeWindow limit rawVideoList
  let limit2 := limit - first.length
  let token := findNextToken rawVideoList
  if token = "" ∨ limit2 = 0 then [first]
  else first :: parsePage2Batches limit2 pages

/-- Options (src/pkg/ytpl/types.go): the request-relevant state, a nil Query
map modelled as none (the HTTP client field plays no role here). -/
structure Options where
  Limit : Int
  Query : Option (List (String × String))
deriving DecidableEq

/-- Go map assignment q[k] = v on an association-list map. -/
def setQueryKey (q : List (String × String)) (k v : String) : List (String × String) :=
  if q.any fun kv => kv.1 = k then
    q.map fun kv => if kv.1 = k then (k, v) else kv
  else q ++ [(k, v)]

/-- checkArgs (src/pkg/ytpl/parse.go lines 643-658): nil options become zero
options, a non-positive limit becomes 100, a nil query map is allocated, and
the resolved playlist ID is written into Query["list"].  The same options
object is returned, so a caller-supplied options value is mutated in place. -/
def checkArgs (plistID : String) (options : Option Options) : Options :=
  let o := options.getD { Limit := 0, Query := none }
  let o1 := if o.Limit ≤ 0 then { o with Limit := 100 } else o
  let q := o1.Query.getD []
  { o1 with Query := some (setQueryKey q "list" plistID) }

/-- The caller-visible effect of a successful getPlaylist run (src/pkg/ytpl/
parse.go lines 370-641) on its options: the items collected up to the budget,
and the final mutated options whose Limit was decremented page by page by the
number of decoded items (the per-page decrements telescope to the total). -/
def getPlaylistRun (plistID : String) (options : Option Options)
    (rawVideoList : List JSON) (pages : List (List (String × JSON))) :
    List PlaylistItem × Options :=
  let opts := checkArgs plistID options
  let items := (getPlaylistBatches opts.Limit.toNat rawVideoList pages).flatten
  (items, { opts with Limit := opts.Limit - items.length })

/-- A raw item list whose decodable entries all precede its undecodable ones
(as in upstream pages, where the only non-item entry is the trailing
continuation marker). -/
def ItemsFirst (l : List JSON) : Prop :=
  ∃ xs ys, l = xs ++ ys ∧ (∀ x ∈ xs, (parseItem x).isSome) ∧ (∀ y ∈ ys, parseItem y = none)

/-- Number of items the full raw list of a page decodes to (no budget). -/
def pageFullCount (resp : List (String × JSON)) : Nat :=
  ((extractPageItems resp).filterMap parseItem).length


/-- Outcome of the JSON-presence checks getPlaylist performs after the page
fetch and the fallback browse POST (src/pkg/ytpl/parse.go lines 421-431). -/
inductive RetryOutcome where
  | failUnknownPlaylist
  | failUnsupportedAfterRetries
  | retryCall (remaining : Nat)
  | proceed
deriving DecidableEq

/-- The Go nil test parsed.JSON["sidebar"] == nil (line 421): indexing a nil
map yields nil, and an absent key or a JSON null value both give nil. -/
def sidebarAbsent (json : Option (List (String × JSON))) : Bool :=
  match json with
  | none => true
  | some kvs =>
    match lookupJ kvs "sidebar" with
    | none => true
    | some .null => true
    | some _ => false

/-- Retry budget passed by GetPlaylist (src/pkg/ytpl/parse.go line 371). -/
def GetPlaylistRetries : Nat := 3

/-- The decision getPlaylist takes on the parsed JSON after the fallback POST
(lines 421-431), in source order: the sidebar nil-check precedes the nil-JSON
retry check, so the retry branch is examined only when the sidebar check
passed. -/
def playlistRetryDecision (json : Option (List (String × JSON))) (retries : Nat) :
    RetryOutcome :=
  if sidebarAbsent json then .failUnknownPlaylist
  else
    match json with
    | none =>
      if retries = 0 then .failUnsupportedAfterRetries
      else .retryCall (retries - 1)
    | some _ => .proceed


/-- Character class [a-zA-Z0-9-_] of the ID regexes
(src/pkg/ytpl/parse.go lines 227-229). -/
def isIDChar (c : Char) : Bool :=
  c.isAlpha || c.isDigit || c = '-' || c = '_'

/-- PlaylistRegex (line 227): two-letter prefix FL, PL, UU, LL or RD followed
by 16 to 41 ID characters, anchored at both ends. -/
def playlistRegexMatch (s : String) : Bool :=
  match s.toList with
  | c1 :: c2 :: rest =>
    ((c1 = 'F' && c2 = 'L') || (c1 = 'P' && c2 = 'L') || (c1 = 'U' && c2 = 'U')
      || (c1 = 'L' && c2 = 'L') || (c1 = 'R' && c2 = 'D'))
    && rest.all isIDChar && decide (16 ≤ rest.length) && decide (rest.length ≤ 41)
  | _ => false

/-- AlbumRegex (line 228): OLAK5uy_ followed by exactly 33 ID characters. -/
def albumRegexMatch (s : String) : Bool :=
  match s.toList with
  | 'O' :: 'L' :: 'A' :: 'K' :: '5' :: 'u' :: 'y' :: '_' :: rest =>
    rest.all isIDChar && decide (rest.length = 33)
  | _ => false

/-- ChannelRegex (line 229): UC followed by 22 to 32 ID characters. -/
def channelRegexMatch (s : String) : Bool :=
  match s.toList with
  | 'U' :: 'C' :: rest =>
    rest.all isIDChar && decide (22 ≤ rest.length) && decide (rest.length ≤ 32)
  | _ => false

/-- Known hosts (line 231). -/
def YTHosts : List String :=
  ["www.youtube.com", "youtube.com", "music.youtube.com"]

/-- strings.HasPrefix(listParam, "RD") (line 268). -/
def hasRDStart (s : String) : Bool :=
  match s.toList with
  | 'R' :: 'D' :: _ => true
  | _ => false

/-- Parsed URL: host, path and query bindings in document order.  Model of
the relevant output of the external net/url collaborator. -/
structure GoURL where
  host : String
  path : String
  query : List (String × String)
deriving DecidableEq

/-- Split a character list at the first occurrence of sep. -/
def splitOnceList (sep : List Char) : List Char → Option (List Char × List Char)
  | [] => if listStarts sep [] then some ([], []) else none
  | c :: rest =>
    if listStarts sep (c :: rest) then some ([], (c :: rest).drop sep.length)
    else (splitOnceList sep rest).map fun pr => (c :: pr.1, pr.2)

/-- Split a character list on every occurrence of a separator character. -/
def splitAll (sep : Char) : List Char → List (List Char)
  | [] => [[]]
  | c :: cs =>
    if c = sep then [] :: splitAll sep cs
    else
      match splitAll sep cs with
      | [] => [[c]]
      | h :: t => (c :: h) :: t

/-- Query-string parse: components split on the ampersand, empty components
skipped, each component split at its first equals sign (a component without
one maps to the empty value).  Model of the external net/url query parsing;
percent-decoding is omitted, as no input concerned here contains escapes. -/
def queryParse (cs : List Char) : List (String × String) :=
  ((splitAll '&' cs).filter fun comp => ¬comp.isEmpty).map fun comp =>
    match splitOnceList ['='] comp with
    | some (k, v) => (String.mk k, String.mk v)
    | none => (String.mk comp, "")

/-- URL parse, a model of the external net/url collaborator for the inputs
this package handles: an embedded control character fails; a string without
"://" parses as a relative reference with empty host; otherwise the host runs
to the first slash or question mark, the path to the question mark, and the
remainder is the query string. -/
def parseGoURL (s : String) : Option GoURL :=
  let cs := s.toList
  if cs.any fun c => c.toNat < 32 || c.toNat = 127 then none
  else
    match splitOnceList [':', '/', '/'] cs with
    | none =>
      let pathCs := cs.takeWhile fun c => c ≠ '?'
      let queryCs := (cs.drop pathCs.length).drop 1
      some { host := "", path := String.mk pathCs, query := queryParse queryCs }
    | some (_, rest) =>
      let hostCs := rest.takeWhile fun c => c ≠ '/' && c ≠ '?'
      let afterHost := rest.drop hostCs.length
      let pathCs := afterHost.takeWhile fun c => c ≠ '?'
      let queryCs := (afterHost.drop pathCs.length).drop 1
      some { host := String.mk hostCs, path := String.mk pathCs, query := queryParse queryCs }

/-- url.Values lookup: Get returns the first value of the key; Has is
the success of the lookup. -/
def queryGet (q : List (String × String)) (k : String) : Option String :=
  (q.find? fun kv => kv.1 = k).map fun kv => kv.2

/-- strings.Trim(s, "/"): remove leading and trailing slashes. -/
def trimSlashes (cs : List Char) : List Char :=
  ((cs.dropWhile fun c => c = '/').reverse.dropWhile fun c => c = '/').reverse

/-- Result of playlist-ID resolution: a resolved ID, an error message, or
delegation to the external channel-page resolution collaborator
(toChannelList, which performs a network fetch and is out of scope). -/
inductive IDResult where
  | ok (id : String)
  | fail (msg : String)
  | channelRef (ref : String)
deriving DecidableEq

/-- GetPlaylistID (src/pkg/ytpl/parse.go lines 234-294): empty input fails;
an input matching the playlist or album shape is returned unchanged; a
channel ID becomes its uploads list (UU prefix); otherwise the input is
parsed as a URL, its host must be known, a list query parameter is resolved
by shape (well-shaped playlist or album IDs accepted, an RD-prefixed
remainder rejected as a mix, anything else invalid), and failing that the
last two path segments select channel, user or c resolution. -/
def GetPlaylistID (linkOrID : String) : IDResult :=
  if linkOrID = "" then .fail "the linkOrId has to be a non-empty string"
  else if playlistRegexMatch linkOrID || albumRegexMatch linkOrID then .ok linkOrID
  else if channelRegexMatch linkOrID then
    .ok (String.mk ('U' :: 'U' :: linkOrID.toList.drop 2))
  else
    match parseGoURL linkOrID with
    | none => .fail "invalid URL"
    | some parsed =>
      if ¬YTHosts.contains parsed.host then .fail "not a known youtube link"
      else
        match queryGet parsed.query "list" with
        | some listParam =>
          if playlistRegexMatch listParam || albumRegexMatch listParam then .ok listParam
          else if hasRDStart listParam then .fail "mixes not supported"
          else .fail "invalid or unknown list query in url"
        | none =>
          let pathParts := (splitAll '/' (trimSlashes parsed.path.toList)).map String.mk
          if pathParts.length < 2 then
            .fail ("unable to find a id in \"" ++ linkOrID ++ "\"")
          else
            let maybeType := pathParts.getD (pathParts.length - 2) ""
            let maybeID := pathParts.getD (pathParts.length - 1) ""
            if maybeType = "channel" then
              if channelRegexMatch maybeID then
                .ok (String.mk ('U' :: 'U' :: maybeID.toList.drop 2))
              else .fail ("unable to find a id in \"" ++ linkOrID ++ "\"")
            else if maybeType = "user" then
              .channelRef ("https://www.youtube.com/user/" ++ maybeID)
            else if maybeType = "c" then
              .channelRef ("https://www.youtube.com/c/" ++ maybeID)
            else .fail ("unable to find a id in \"" ++ linkOrID ++ "\"")


/-- Best-thumbnail selection of getPlaylist (src/pkg/ytpl/parse.go lines
497-506): the entry with the greatest integral width, widths checked with a
typed assertion, starting from a zero maximum with strict improvement. -/
def bestThumbnailScan (thumbnails : List JSON) : Option (List (String × JSON)) :=
  (thumbnails.foldl (fun acc thumb =>
    match thumb with
    | .obj thumbMap =>
      match lookupJ thumbMap "width" with
      | some (.num width) => if width > acc.1 then (width, some thumbMap) else acc
      | _ => acc
    | _ => acc) ((0 : Int), (none : Option (List (String × JSON))))).2

/-- Best-thumbnail record construction of getPlaylist (src/pkg/ytpl/parse.go
lines 507-513): url, width and height are read with UNCHECKED type
assertions, so a selected entry whose url or height has an unexpected type
panics (width was typed during selection but is re-asserted). -/
def playlistBestThumbnail (thumbnails : List JSON) : GoResult (Option Thumbnail) :=
  match bestThumbnailScan thumbnails with
  | none => .value none
  | some bestThumbnail =>
    match lookupJ bestThumbnail "url" with
    | some (.str url) =>
      match lookupJ bestThumbnail "width" with
      | some (.num width) =>
        match lookupJ bestThumbnail "height" with
        | some (.num height) => .value (some { URL := url, Width := width, Height := height })
        | _ => .panicked
      | _ => .panicked
    | _ => .panicked


end ytpl

namespace ytsr

/-- Thumbnail record (src/pkg/ytsr/types.go); width and height are the
integral values of the float64 fields. -/
structure Thumbnail where
  URL : String := ""
  Width : Int := 0
  Height : Int := 0
deriving DecidableEq

/-- Author record (src/pkg/ytsr/types.go). -/
structure Author where
  Name : String := ""
  ChannelID : String := ""
  URL : String := ""
  BestAvatar : Option Thumbnail := none
  Avatars : List Thumbnail := []
  Verified : Bool := false
  Badges : List String := []
deriving DecidableEq

/-- Owner record (src/pkg/ytsr/types.go). -/
structure Owner where
  Name : String := ""
  ChannelID : String := ""
  URL : String := ""
  Verified : Bool := false
  Badges : List String := []
deriving DecidableEq

/-- SearchItem record (src/pkg/ytsr/types.go); the Go field Type is renamed
to type, Type being a Lean keyword. -/
structure SearchItem where
  type : String := ""
  ID : String := ""
  URL : String := ""
  Name : String := ""
  Description : String := ""
  Duration : String := ""
  Thumbnail : String := ""
  Thumbnails : List ytsr.Thumbnail := []
  UploadedAt : String := ""
  Views : Option Int := none
  Author : Option ytsr.Author := none
  IsLive : Bool := false
  Badges : List String := []
  Length : Int := 0
  PublishedAt : String := ""
  Owner : Option ytsr.Owner := none
deriving DecidableEq

/-- Text of one run entry of the ytsr text extractor
(src/pkg/ytsr/main.go lines 780-788). -/
def runText : JSON → String
  | .obj runMap =>
    match lookupJ runMap "text" with
    | some (.str t) => t
    | _ => ""
  | _ => ""

/-- parseText (src/pkg/ytsr/main.go lines 764-792): like the ytpl extractor
but with a content string tried before simpleText. -/
def parseText : JSON → String
  | .str t => t
  | .obj t =>
    match lookupJ t "content" with
    | some (.str content) => content
    | _ =>
      match lookupJ t "simpleText" with
      | some (.str simpleText) => simpleText
      | _ =>
        match lookupJ t "runs" with
        | some (.arr runs) => String.join (runs.map runText)
        | _ => ""
  | _ => ""

/-- parseIntegerFromText (src/pkg/ytsr/main.go lines 794-807): extract the
text, delete every non-digit (regexp \D+), then strconv.Atoi with parse
failure giving 0. -/
def parseIntegerFromText (text : JSON) : Int :=
  let textStr := parseText text
  if textStr = "" then 0
  else
    match atoiList (textStr.toList.filter Char.isDigit) with
    | some num => num
    | none => 0

/-- Model of resolving a thumbnail or channel reference against the base
https://www.youtube.com/ through the external net/url collaborator: absolute
references are kept, protocol-relative and host-relative ones are completed,
anything else resolves against the base root. -/
def resolveRef (ref : String) : String :=
  if strContains ref "://" then ref
  else if listStarts ['/', '/'] ref.toList then "https:" ++ ref
  else if listStarts ['/'] ref.toList then "https://www.youtube.com" ++ ref
  else "https://www.youtube.com/" ++ ref

/-- One entry of prepareThumbnails (src/pkg/ytsr/main.go lines 314-339):
non-object entries are skipped, each field is independently optional. -/
def prepareThumbnail1 (thumb : JSON) : Option Thumbnail :=
  match thumb with
  | .obj thumbMap =>
    let base : Thumbnail := {}
    let withURL :=
      match getStrField thumbMap "url" with
      | some urlStr => { base with URL := resolveRef urlStr }
      | none => base
    let withW :=
      match lookupJ thumbMap "width" with
      | some (.num width) => { withURL with Width := width }
      | _ => withURL
    let withH :=
      match lookupJ thumbMap "height" with
      | some (.num height) => { withW with Height := height }
      | _ => withW
    some withH
  | _ => none

/-- Inner pass of the descending-width double swap loop of prepareThumbnails
(lines 342-348) for a fixed outer index: the current front value is swapped
with every later, strictly wider entry in turn; the value displaced by a swap
stays at that later position. -/
def innerPass (acc : Thumbnail) : List Thumbnail → Thumbnail × List Thumbnail
  | [] => (acc, [])
  | t :: ts =>
    if acc.Width < t.Width then
      let pr := innerPass t ts
      (pr.1, acc :: pr.2)
    else
      let pr := innerPass acc ts
      (pr.1, t :: pr.2)

/-- Outer loop of the swap sort; the fuel equals the list length (innerPass
preserves length, so the fuel is never exhausted early). -/
def selSortGo : Nat → List Thumbnail → List Thumbnail
  | 0, _ => []
  | _, [] => []
  | fuel + 1, t :: ts =>
    let pr := innerPass t ts
    pr.1 :: selSortGo fuel pr.2

/-- The in-place sort of prepareThumbnails (lines 342-348). -/
def selSortDesc (l : List Thumbnail) : List Thumbnail :=
  selSortGo l.length l

/-- prepareThumbnails (src/pkg/ytsr/main.go lines 311-351). -/
def prepareThumbnails (thumbnails : List JSON) : List Thumbnail :=
  selSortDesc (thumbnails.filterMap prepareThumbnail1)

/-- parseAuthor (src/pkg/ytsr/main.go lines 636-694). -/
def parseAuthor (obj : List (String × JSON)) : Option Author :=
  match getObjField obj "ownerText" with
  | some ownerText =>
    match getArrField ownerText "runs" with
    | some runs =>
      if runs.isEmpty then none
      else
        match runs.head? with
        | some (.obj run) =>
          let a0 : Author := {}
          let a1 :=
            match getStrField run "text" with
            | some text => { a0 with Name := text }
            | none => a0
          let a2 :=
            match getObjField run "navigationEndpoint" with
            | some navEndpoint =>
              match getObjField navEndpoint "browseEndpoint" with
              | some browseEndpoint =>
                let b1 :=
                  match getStrField browseEndpoint "browseId" with
                  | some browseId => { a1 with ChannelID := browseId }
                  | none => a1
                match getStrField browseEndpoint "canonicalBaseUrl" with
                | some canonicalUrl => { b1 with URL := resolveRef canonicalUrl }
                | none => b1
              | none => a1
            | none => a1
          let a3 :=
            match getObjField obj "channelThumbnailSupportedRenderers" with
            | some ctsr =>
              match getObjField ctsr "channelThumbnailWithLinkRenderer" with
              | some renderer =>
                match getObjField renderer "thumbnail" with
                | some thumbnail =>
                  match getArrField thumbnail "thumbnails" with
                  | some thumbnails =>
                    let avatars := prepareThumbnails thumbnails
                    { a2 with Avatars := avatars, BestAvatar := avatars.head? }
                  | none => a2
                | none => a2
              | none => a2
            | none => a2
          let a4 :=
            match getArrField obj "ownerBadges" with
            | some ownerBadges =>
              ownerBadges.foldl (fun a badge =>
                match badge with
                | .obj badgeMap =>
                  match getObjField badgeMap "metadataBadgeRenderer" with
                  | some renderer =>
                    match getStrField renderer "tooltip" with
                    | some tooltip =>
                      let a2 := { a with Badges := a.Badges ++ [tooltip] }
                      if strContains tooltip "VERIFIED" || strContains tooltip "OFFICIAL" then
                        { a2 with Verified := true }
                      else a2
                    | none => a
                  | none => a
                | _ => a) a3
            | none => a3
          some a4
        | _ => none
    | none => none
  | none => none

/-- parseOwner (src/pkg/ytsr/main.go lines 696-762).  The style-based
else-if branch of its badge loop repeats the exact lookup of the preceding
branch (lines 747-753 of the source), so it can never be taken; it is
transcribed as in the source. -/
def parseOwner (obj : List (String × JSON)) : Option Owner :=
  let ownerRuns : List JSON :=
    match getObjField obj "shortBylineText" with
    | some shortByline =>
      match getArrField shortByline "runs" with
      | some runs => runs
      | none => []
    | none =>
      match getObjField obj "longBylineText" with
      | some longByline =>
        match getArrField longByline "runs" with
        | some runs => runs
        | none => []
      | none => []
  if ownerRuns.isEmpty then none
  else
    match ownerRuns.head? with
    | some (.obj run) =>
      let o0 : Owner := {}
      let o1 :=
        match getStrField run "text" with
        | some text => { o0 with Name := text }
        | none => o0
      let o2 :=
        match getObjField run "navigationEndpoint" with
        | some navEndpoint =>
          match getObjField navEndpoint "browseEndpoint" with
          | some browseEndpoint =>
            let b1 :=
              match getStrField browseEndpoint "browseId" with
              | some browseId => { o1 with ChannelID := browseId }
              | none => o1
            match getStrField browseEndpoint "canonicalBaseUrl" with
            | some canonicalUrl => { b1 with URL := resolveRef canonicalUrl }
            | none => b1
          | none => o1
        | none => o1
      let o3 :=
        match getArrField obj "ownerBadges" with
        | some ownerBadges =>
          ownerBadges.foldl (fun o badge =>
            match badge with
            | .obj badgeMap =>
              match getObjField badgeMap "metadataBadgeRenderer" with
              | some renderer =>
                match getStrField renderer "tooltip" with
                | some tooltip =>
                  let o2 := { o with Badges := o.Badges ++ [tooltip] }
                  if strContains tooltip.toUpper "VERIFIED"
                      || strContains tooltip.toUpper "OFFICIAL"
                      || strContains tooltip.toUpper "ARTIST" then
                    { o2 with Verified := true }
                  else o2
                | none => o
              | none =>
                match getObjField badgeMap "metadataBadgeRenderer" with
                | some renderer =>
                  match getStrField renderer "style" with
                  | some style =>
                    if style = "BADGE_STYLE_TYPE_VERIFIED"
                        || style = "BADGE_STYLE_TYPE_VERIFIED_ARTIST" then
                      { o with Verified := true }
                    else o
                  | none => o
                | none => o
            | _ => o) o2
        | none => o2
      some o3
    | _ => none

/-- parsePlaylist (src/pkg/ytsr/main.go lines 617-634). -/
def parsePlaylist (obj : List (String × JSON)) : SearchItem :=
  let s0 : SearchItem := { type := "playlist" }
  let s1 :=
    match getStrField obj "playlistId" with
    | some playlistId =>
      { s0 with ID := playlistId,
                URL := "https://www.youtube.com/playlist?list=" ++ playlistId }
    | none => s0
  let s2 :=
    match lookupJ obj "title" with
    | some title => { s1 with Name := parseText title }
    | none => s1
  { s2 with Owner := parseOwner obj }

/-- parseLockupViewModel (src/pkg/ytsr/main.go lines 517-540). -/
def parseLockupViewModel (obj : List (String × JSON)) : Option SearchItem :=
  match getStrField obj "contentType" with
  | some contentType =>
    if contentType = "LOCKUP_CONTENT_TYPE_PLAYLIST" then
      let s0 : SearchItem := { type := "playlist" }
      let s1 :=
        match getStrField obj "contentId" with
        | some contentId =>
          { s0 with ID := contentId,
                    URL := "https://www.youtube.com/playlist?list=" ++ contentId }
        | none => s0
      let s2 :=
        match getObjField obj "metadata" with
        | some metadata =>
          match getObjField metadata "lockupMetadataViewModel" with
          | some lockupMetadata =>
            match lookupJ lockupMetadata "title" with
            | some title => { s1 with Name := parseText title }
            | none => s1
          | none => s1
        | none => s1
      some s2
    else none
  | none => none

/-- Description extraction of parseVideo (src/pkg/ytsr/main.go lines
565-577): descriptionSnippet first, then a nonempty detailedMetadataSnippets
sequence, then richSnippet, whose value is asserted to be an object WITHOUT
a check (line 574) and therefore panics on any other shape. -/
def descOf (obj : List (String × JSON)) : GoResult String :=
  match lookupJ obj "descriptionSnippet" with
  | some desc => .value (parseText desc)
  | none =>
    match getArrField obj "detailedMetadataSnippets" with
    | some detailedSnippets =>
      if detailedSnippets.isEmpty then
        match lookupJ obj "richSnippet" with
        | some (.obj richSnippet) =>
          match lookupJ richSnippet "snippetText" with
          | some snippetText => .value (parseText snippetText)
          | none => .value ""
        | some _ => .panicked
        | none => .value ""
      else
        match detailedSnippets.head? with
        | some (.obj snippet) =>
          match lookupJ snippet "snippetText" with
          | some snippetText => .value (parseText snippetText)
          | none => .value ""
        | _ => .value ""
    | none =>
      match lookupJ obj "richSnippet" with
      | some (.obj richSnippet) =>
        match lookupJ richSnippet "snippetText" with
        | some snippetText => .value (parseText snippetText)
        | none => .value ""
      | some _ => .panicked
      | none => .value ""

/-- videoId and URL fields of parseVideo (lines 547-550). -/
def applyVideoID (obj : List (String × JSON)) (s : SearchItem) : SearchItem :=
  match getStrField obj "videoId" with
  | some videoId =>
    { s with ID := videoId, URL := "https://www.youtube.com/watch?v=" ++ videoId }
  | none => s

/-- title field of parseVideo (lines 552-554). -/
def applyVideoTitle (obj : List (String × JSON)) (s : SearchItem) : SearchItem :=
  match lookupJ obj "title" with
  | some title => { s with Name := parseText title }
  | none => s

/-- thumbnail fields of parseVideo (lines 556-563). -/
def applyVideoThumbnails (obj : List (String × JSON)) (s : SearchItem) : SearchItem :=
  match getObjField obj "thumbnail" with
  | some thumbnail =>
    match getArrField thumbnail "thumbnails" with
    | some thumbnails =>
      let ts := prepareThumbnails thumbnails
      let s2 := { s with Thumbnails := ts }
      match ts.head? with
      | some t0 => { s2 with Thumbnail := t0.URL }
      | none => s2
    | none => s
  | none => s

/-- viewCountText field of parseVideo (lines 579-583): only a positive
extracted count is recorded. -/
def applyVideoViews (obj : List (String × JSON)) (s : SearchItem) : SearchItem :=
  match lookupJ obj "viewCountText" with
  | some viewCount =>
    let views := parseIntegerFromText viewCount
    if views > 0 then { s with Views := some views } else s
  | none => s

/-- lengthText field of parseVideo (lines 585-587). -/
def applyVideoDuration (obj : List (String × JSON)) (s : SearchItem) : SearchItem :=
  match lookupJ obj "lengthText" with
  | some lengthText => { s with Duration := parseText lengthText }
  | none => s

/-- publishedTimeText field of parseVideo (lines 589-591). -/
def applyVideoUploadedAt (obj : List (String × JSON)) (s : SearchItem) : SearchItem :=
  match lookupJ obj "publishedTimeText" with
  | some publishedTime => { s with UploadedAt := parseText publishedTime }
  | none => s

/-- badge labels of parseVideo (lines 595-605). -/
def applyVideoBadges (obj : List (String × JSON)) (s : SearchItem) : SearchItem :=
  match getArrField obj "badges" with
  | some badges =>
    { s with Badges := badges.foldl (fun acc badge =>
        match badge with
        | .obj badgeMap =>
          match getObjField badgeMap "metadataBadgeRenderer" with
          | some renderer =>
            match getStrField renderer "label" with
            | some label => acc ++ [label]
            | none => acc
          | none => acc
        | _ => acc) [] }
  | none => s

/-- live flag of parseVideo (lines 607-612). -/
def applyVideoIsLive (s : SearchItem) : SearchItem :=
  if s.Badges.any fun badge => badge = "LIVE NOW" || badge = "LIVE" then
    { s with IsLive := true }
  else s

/-- parseVideo (src/pkg/ytsr/main.go lines 542-615): builds the item field
by field in source order; the description extraction may panic on a non-map
richSnippet, which aborts the whole decode. -/
def parseVideo (obj : List (String × JSON)) : GoResult SearchItem :=
  match descOf obj with
  | .panicked => .panicked
  | .value desc =>
    let s := applyVideoID obj { type := "video" }
    let s := applyVideoTitle obj s
    let s := applyVideoThumbnails obj s
    let s := { s with Description := desc }
    let s := applyVideoViews obj s
    let s := applyVideoDuration obj s
    let s := applyVideoUploadedAt obj s
    let s := { s with Author := parseAuthor obj }
    let s := applyVideoBadges obj s
    .value (applyVideoIsLive s)

/-- Key dispatch loop of parseItem (src/pkg/ytsr/main.go lines 497-512) over
the object's bindings in map-iteration order: the first key matching a switch
case decides the result; the renderer values of the video, playlist, grid and
lockup cases are asserted to be objects WITHOUT a check and panic on any
other shape. -/
def parseItemLoop : List (String × JSON) → GoResult (Option SearchItem)
  | [] => .value none
  | (key, value) :: rest =>
    if key = "videoRenderer" then
      match value with
      | .obj m => (parseVideo m).map some
      | _ => .panicked
    else if key = "playlistRenderer" then
      match value with
      | .obj m => .value (some (parsePlaylist m))
      | _ => .panicked
    else if key = "gridVideoRenderer" then
      match value with
      | .obj m => (parseVideo m).map some
      | _ => .panicked
    else if key = "channelRenderer" then .value none
    else if key = "lockupViewModel" then
      match value with
      | .obj m => .value (parseLockupViewModel m)
      | _ => .panicked
    else if key = "gridShelfViewModel" then .value none
    else parseItemLoop rest

/-- parseItem (src/pkg/ytsr/main.go lines 491-515). -/
def parseItem (item : JSON) : GoResult (Option SearchItem) :=
  match item with
  | .obj itemMap => parseItemLoop itemMap
  | _ => .value none

/-- Session context cache (src/pkg/ytsr/types.go, lock omitted: the claims
concern a single sequential caller). -/
structure Cache where
  ClientVersion : String
  PlaylistParams : String
deriving DecidableEq

/-- The process-wide cache's initial values (src/pkg/ytsr/main.go lines
22-25). -/
def defaultCache : Cache :=
  { ClientVersion := "2.20240606.06.00", PlaylistParams := "EgIQAw%3D%3D" }

/-- needsInitialRequest (src/pkg/ytsr/main.go line 60): the initial-data page
fetch is performed iff the call is NOT safe-search, or either cached field is
empty. -/
def needsInitialRequest (safeSearch : Bool) (c : Cache) : Bool :=
  !safeSearch || c.ClientVersion == "" || c.PlaylistParams == ""

/-- saveCache (src/pkg/ytsr/main.go lines 231-245): overwrite ClientVersion
when the fetched context carries a string client version, and PlaylistParams
when the params regexp matched a nonempty blob in the body. -/
def saveCache (c : Cache) (fetchedVersion : Option String) (playlistParams : String) : Cache :=
  let c1 :=
    match fetchedVersion with
    | some cv => { c with ClientVersion := cv }
    | none => c
  if playlistParams ≠ "" then { c1 with PlaylistParams := playlistParams } else c1

/-- One search call's initial-fetch behaviour (src/pkg/ytsr/main.go lines
59-73): whether the initial-data GET is performed, and the cache afterwards
(updated through saveCache on a fetch, untouched otherwise).  The fetched
payload is abstracted as the version and params it would yield. -/
def searchAttempt (safeSearch : Bool) (c : Cache) (fetchedVersion : Option String)
    (playlistParams : String) : Bool × Cache :=
  if needsInitialRequest safeSearch c then
    (true, saveCache c fetchedVersion playlistParams)
  else (false, c)


end ytsr

namespace ytpl
lemma firstNonempty_singleton (t : String) : firstNonempty [t] = t := by
  by_cases h : t = "" <;> simp [firstNonempty, h]

lemma firstNonempty_append (a b : List String) :
    firstNonempty (a ++ b) =
      if firstNonempty a ≠ "" then firstNonempty a else firstNonempty b := by
  unfold firstNonempty
  rw [List.filter_append]
  cases h : a.filter (fun s => s ≠ "") with
  | nil => simp [h]
  | cons x xs =>
    have hx : x ≠ "" := by
      have hmem : x ∈ a.filter (fun s => s ≠ "") := h ▸ List.mem_cons_self x xs
      simpa using (List.mem_filter.mp hmem).2
    simp [h, hx]

lemma firstNonempty_mem {l : List String} (h : firstNonempty l ≠ "") :
    firstNonempty l ∈ l := by
  unfold firstNonempty at *
  cases hf : l.filter (fun s => s ≠ "") with
  | nil => rw [hf] at h; simp at h
  | cons x xs =>
    have hmem : x ∈ l.filter (fun s => s ≠ "") := hf ▸ List.mem_cons_self x xs
    simpa using (List.mem_filter.mp hmem).1

mutual

theorem findTokenRecursively_char :
    (j : JSON) → findTokenRecursively j = firstNonempty (prunedTokens j)
  | .null => rfl
  | .bool _ => rfl
  | .num _ => rfl
  | .str _ => rfl
  | .obj v => by
    simp only [findTokenRecursively, prunedTokens]
    cases h : ownToken v with
    | some token => simp [firstNonempty_singleton]
    | none => exact findTokenPairs_char v
  | .arr items => by
    simp only [findTokenRecursively, prunedTokens]
    exact findTokenList_char items

theorem findTokenPairs_char :
    (l : List (String × JSON)) → findTokenPairs l = firstNonempty (prunedTokensPairs l)
  | [] => rfl
  | kv :: rest => by
    simp only [findTokenPairs, prunedTokensPairs, firstNonempty_append,
      findTokenRecursively_char kv.2, findTokenPairs_char rest]

theorem findTokenList_char :
    (l : List JSON) → findTokenList l = firstNonempty (prunedTokensList l)
  | [] => rfl
  | item :: rest => by
    simp only [findTokenList, prunedTokensList, firstNonempty_append,
      findTokenRecursively_char item, findTokenList_char rest]

end

mutual

theorem prunedTokens_subset :
    (j : JSON) → ∀ t ∈ prunedTokens j, t ∈ tokensInDFS j
  | .null => by simp [prunedTokens]
  | .bool _ => by simp [prunedTokens]
  | .num _ => by simp [prunedTokens]
  | .str _ => by simp [prunedTokens]
  | .obj v => by
    intro t ht
    simp only [prunedTokens] at ht
    simp only [tokensInDFS]
    cases h : ownToken v with
    | some token =>
      rw [h] at ht
      simp only [List.mem_append]
      left
      simpa using ht
    | none =>
      rw [h] at ht
      simp only [List.mem_append]
      right
      exact prunedTokensPairs_subset v t ht
  | .arr items => by
    intro t ht
    simp only [prunedTokens] at ht
    simp only [tokensInDFS]
    exact prunedTokensList_subset items t ht

theorem prunedTokensPairs_subset :
    (l : List (String × JSON)) → ∀ t ∈ prunedTokensPairs l, t ∈ tokensInDFSPairs l
  | [] => by simp [prunedTokensPairs]
  | kv :: rest => by
    intro t ht
    simp only [prunedTokensPairs, List.mem_append] at ht
    simp only [tokensInDFSPairs, List.mem_append]
    cases ht with
    | inl h => exact Or.inl (prunedTokens_subset kv.2 t h)
    | inr h => exact Or.inr (prunedTokensPairs_subset rest t h)

theorem prunedTokensList_subset :
    (l : List JSON) → ∀ t ∈ prunedTokensList l, t ∈ tokensInDFSList l
  | [] => by simp [prunedTokensList]
  | item :: rest => by
    intro t ht
    simp only [prunedTokensList, List.mem_append] at ht
    simp only [tokensInDFSList, List.mem_append]
    cases ht with
    | inl h => exact Or.inl (prunedTokens_subset item t h)
    | inr h => exact Or.inr (prunedTokensList_subset rest t h)

end

end ytpl

lemma atoiList_nonneg_of_no_minus (cs : List Char) (h : ∀ c ∈ cs, c ≠ '-') :
    0 ≤ (atoiList cs).getD 0 := by
  have hneg : (cs.head? == some '-') = false := by
    cases hc : cs.head? with
    | none => rfl
    | some c =>
      have hmem : c ∈ cs := by
        cases cs with
        | nil => simp at hc
        | cons a as =>
          simp only [List.head?_cons, Option.some.injEq] at hc
          exact hc ▸ List.mem_cons_self a as
      simp [h c hmem]
  have hpos : ∀ ds : List Char, 0 ≤ (atoiDigits false ds).getD 0 := by
    intro ds
    unfold atoiDigits
    split
    · simp
    · split
      · split
        · simp at *
        · split
          · simp
          · simp
      · simp
  unfold atoiList
  rw [hneg]
  exact hpos _

lemma parseNumFromText_eq_spec (t : JSON) :
    ytpl.parseNumFromText t = ytpl.numExtractorSpec t := by
  unfold ytpl.parseNumFromText ytpl.numExtractorSpec
  by_cases h : ytpl.parseText t = ""
  · simp [h, atoiList, atoiDigits]
  · simp [h]

lemma parseNumFromText_nonneg (t : JSON) : 0 ≤ ytpl.parseNumFromText t := by
  unfold ytpl.parseNumFromText
  by_cases h : ytpl.parseText t = ""
  · simp [h]
  · simp only [h, if_false]
    have hno : ∀ c ∈ ((ytpl.parseText t).toList.filter ytpl.isKeptChar).filter
        (fun c => c ≠ ','), c ≠ '-' := by
      intro c hc
      simp only [List.mem_filter] at hc
      rintro rfl
      simp [ytpl.isKeptChar] at hc
    have hge := atoiList_nonneg_of_no_minus _ hno
    cases hres : atoiList (((ytpl.parseText t).toList.filter ytpl.isKeptChar).filter
        (fun c => c ≠ ',')) with
    | none => simp
    | some v =>
      rw [hres] at hge
      simpa using hge

/-- C9: the numeric extractor equals the reference function stated by the
spec (filter to digits, commas and periods, delete commas, integer parse with
failure giving 0); the listed examples evaluate as stated and the result is
always a non-negative integer. -/
theorem C9_parseNumFromText_matches_reference :
    (∀ t : JSON, ytpl.parseNumFromText t = ytpl.numExtractorSpec t
        ∧ 0 ≤ ytpl.parseNumFromText t)
    ∧ ytpl.parseNumFromText (JSON.str "1,234 views") = 1234
    ∧ ytpl.parseNumFromText (JSON.str "No views") = 0
    ∧ ytpl.parseNumFromText (JSON.str "") = 0 := by
  refine ⟨fun t => ⟨parseNumFromText_eq_spec t, parseNumFromText_nonneg t⟩, ?_, ?_, ?_⟩
  · decide
  · decide
  · decide

/-- C7 (amended): when the three direct shapes fail, the locator equals the
recursive fallback, which returns the first nonempty token in the pruned
depth-first order (a node whose own continuationCommand.token is a string,
even the empty one, is inspected before and instead of its subtree); any
nonempty result is a continuationCommand.token value present in the subtree,
and when no token pair exists anywhere in the subtree the result is "". -/
theorem C7_continuation_fallback_pruned_order :
    ∀ (item renderer : List (String × JSON)),
      getObjField item "continuationItemRenderer" = some renderer →
      ytpl.directShape1 renderer = none →
      ytpl.directShape2 renderer = none →
      ytpl.directShape3 renderer = none →
      ytpl.getContinuationToken item = ytpl.firstNonempty (ytpl.prunedTokens (.obj renderer))
      ∧ (ytpl.getContinuationToken item ≠ "" →
          ytpl.getContinuationToken item ∈ ytpl.tokensInDFS (.obj renderer))
      ∧ (ytpl.tokensInDFS (.obj renderer) = [] → ytpl.getContinuationToken item = "") := by
  intro item renderer h0 h1 h2 h3
  have hg : ytpl.getContinuationToken item = ytpl.findTokenRecursively (.obj renderer) := by
    unfold ytpl.getContinuationToken
    rw [h0]
    simp only [h1, h2, h3]
    by_cases ht : ytpl.findTokenRecursively (.obj renderer) = ""
    · simp [ht]
    · simp [ht]
  refine ⟨?_, ?_, ?_⟩
  · rw [hg]
    exact ytpl.findTokenRecursively_char _
  · intro hne
    rw [hg, ytpl.findTokenRecursively_char] at hne ⊢
    exact ytpl.prunedTokens_subset _ _ (ytpl.firstNonempty_mem hne)
  · intro hempty
    rw [hg, ytpl.findTokenRecursively_char]
    have hpr : ytpl.prunedTokens (.obj renderer) = [] := by
      rw [List.eq_nil_iff_forall_not_mem]
      intro t ht
      have hmem := ytpl.prunedTokens_subset _ t ht
      rw [hempty] at hmem
      simp at hmem
    rw [hpr]
    rfl

/-- C7 witness: a token reachable only through the recursive fallback (inside
a sequence under an unknown key, absent from all three direct shapes) is
located and equals the first nonempty pruned-order token, here "DEEP". -/
theorem C7_continuation_fallback_pruned_order_witness :
    ytpl.getContinuationToken
        [("continuationItemRenderer", JSON.obj
          [("x", JSON.arr [JSON.obj
            [("continuationCommand", JSON.obj [("token", JSON.str "DEEP")])]])])]
      = ytpl.firstNonempty (ytpl.prunedTokens (JSON.obj
          [("x", JSON.arr [JSON.obj
            [("continuationCommand", JSON.obj [("token", JSON.str "DEEP")])]])]))
    ∧ ytpl.getContinuationToken
        [("continuationItemRenderer", JSON.obj
          [("x", JSON.arr [JSON.obj
            [("continuationCommand", JSON.obj [("token", JSON.str "DEEP")])]])])] = "DEEP" :=
  ⟨(C7_continuation_fallback_pruned_order
      [("continuationItemRenderer", JSON.obj
        [("x", JSON.arr [JSON.obj
          [("continuationCommand", JSON.obj [("token", JSON.str "DEEP")])]])])]
      [("x", JSON.arr [JSON.obj
        [("continuationCommand", JSON.obj [("token", JSON.str "DEEP")])]])]
      rfl rfl rfl rfl).1, by decide⟩

/-- C7 counterexample: the fallback does not stop at the first
continuationCommand.token pair in depth-first traversal order.  In the first
node the pairs occur in traversal order ["", "T1", "T2"] (T1 nested below the
node carrying ""), yet the locator returns "T2": the empty own-token match is
skipped but still hides its subtree, so neither the first pair ("") nor the
first nonempty pair ("T1") is returned.  In the second node the unique
nonempty token "T" is present in the subtree and absent from all three direct
shapes, yet the locator returns "". -/
theorem C7_counterexample :
    ytpl.getContinuationToken
      [("continuationItemRenderer", JSON.obj
        [("a", JSON.obj [("continuationCommand", JSON.obj [("token", JSON.str "")]),
                         ("z", JSON.obj [("continuationCommand",
                            JSON.obj [("token", JSON.str "T1")])])]),
         ("b", JSON.obj [("continuationCommand", JSON.obj [("token", JSON.str "T2")])])])]
      = "T2"
    ∧ ytpl.tokensInDFS (JSON.obj
        [("a", JSON.obj [("continuationCommand", JSON.obj [("token", JSON.str "")]),
                         ("z", JSON.obj [("continuationCommand",
                            JSON.obj [("token", JSON.str "T1")])])]),
         ("b", JSON.obj [("continuationCommand", JSON.obj [("token", JSON.str "T2")])])])
      = ["", "T1", "T2"]
    ∧ ytpl.directShape1
        [("a", JSON.obj [("continuationCommand", JSON.obj [("token", JSON.str "")]),
                         ("z", JSON.obj [("continuationCommand",
                            JSON.obj [("token", JSON.str "T1")])])]),
         ("b", JSON.obj [("continuationCommand", JSON.obj [("token", JSON.str "T2")])])]
      = none
    ∧ ytpl.getContinuationToken
      [("continuationItemRenderer", JSON.obj
        [("continuationCommand", JSON.obj [("token", JSON.str "")]),
         ("z", JSON.obj [("continuationCommand", JSON.obj [("token", JSON.str "T")])])])]
      = ""
    ∧ ytpl.tokensInDFS (JSON.obj
        [("continuationCommand", JSON.obj [("token", JSON.str "")]),
         ("z", JSON.obj [("continuationCommand", JSON.obj [("token", JSON.str "T")])])])
      = ["", "T"]
    ∧ ytpl.directShape1
        [("continuationCommand", JSON.obj [("token", JSON.str "")]),
         ("z", JSON.obj [("continuationCommand", JSON.obj [("token", JSON.str "T")])])]
      = none := by
  decide

lemma decodeWindow_length_le (limit : Nat) (w : List JSON) :
    (ytpl.decodeWindow limit w).length ≤ limit := by
  unfold ytpl.decodeWindow
  exact le_trans (List.length_filterMap_le _ _) (by simp [List.length_take_le])

lemma filterMap_length_of_isSome {α β : Type} (f : α → Option β) :
    ∀ l : List α, (∀ x ∈ l, (f x).isSome) → (l.filterMap f).length = l.length
  | [], _ => rfl
  | a :: l, h => by
    obtain ⟨b, hb⟩ := Option.isSome_iff_exists.mp (h a (List.mem_cons_self a l))
    have ih := filterMap_length_of_isSome f l fun x hx => h x (List.mem_cons_of_mem _ hx)
    simp [List.filterMap_cons, hb, ih]

lemma window_min {α β : Type} (f : α → Option β) :
    ∀ (xs ys : List α) (r : Nat), (∀ x ∈ xs, (f x).isSome) → (∀ y ∈ ys, f y = none) →
      (((xs ++ ys).take r).filterMap f).length = min r xs.length
  | [], ys, r, _, hy => by
    have hnil : (ys.take r).filterMap f = [] :=
      List.filterMap_eq_nil_iff.mpr fun a ha => hy a (List.mem_of_mem_take ha)
    simp [hnil]
  | _ :: _, _, 0, _, _ => by simp
  | x :: xs, ys, r + 1, hx, hy => by
    obtain ⟨b, hb⟩ := Option.isSome_iff_exists.mp (hx x (List.mem_cons_self _ _))
    have ih := window_min f xs ys r (fun a ha => hx a (List.mem_cons_of_mem _ ha)) hy
    simp only [List.cons_append, List.take_succ_cons, List.filterMap_cons, hb,
      List.length_cons, ih]
    omega

lemma pageFullCount_of_itemsFirst {resp : List (String × JSON)} {xs ys : List JSON}
    (heq : ytpl.extractPageItems resp = xs ++ ys)
    (hx : ∀ x ∈ xs, (ytpl.parseItem x).isSome)
    (hy : ∀ y ∈ ys, ytpl.parseItem y = none) :
    ytpl.pageFullCount resp = xs.length := by
  unfold ytpl.pageFullCount
  rw [heq, List.filterMap_append, List.filterMap_eq_nil_iff.mpr hy, List.append_nil]
  exact filterMap_length_of_isSome _ xs hx

lemma parsePage2Batches_flatten_length :
    ∀ (pages : List (List (String × JSON))) (limit : Nat),
      (∀ p ∈ pages, ytpl.ItemsFirst (ytpl.extractPageItems p)) →
      (∀ p ∈ pages.dropLast, ytpl.findNextToken (ytpl.extractPageItems p) ≠ "") →
      (ytpl.parsePage2Batches limit pages).flatten.length
        = min limit ((pages.map ytpl.pageFullCount).sum)
  | [], limit, _, _ => by simp [ytpl.parsePage2Batches]
  | resp :: rest, limit, hfirst, htok => by
    obtain ⟨xs, ys, heq, hx, hy⟩ := hfirst resp (List.mem_cons_self _ _)
    have hwin : (ytpl.decodeWindow limit (ytpl.extractPageItems resp)).length
        = min limit xs.length := by
      unfold ytpl.decodeWindow
      rw [heq]
      exact window_min _ xs ys limit hx hy
    have hfull : ytpl.pageFullCount resp = xs.length := pageFullCount_of_itemsFirst heq hx hy
    simp only [ytpl.parsePage2Batches]
    by_cases hguard : ytpl.findNextToken (ytpl.extractPageItems resp) = ""
        ∨ limit - (ytpl.decodeWindow limit (ytpl.extractPageItems resp)).length = 0
    · rw [if_pos hguard]
      rcases hguard with htok0 | hlim0
      · cases rest with
        | nil =>
          simp [hwin, hfull]
        | cons r2 rs =>
          exact absurd htok0 (htok resp (by
            rw [List.dropLast_cons₂]
            exact List.mem_cons_self _ _))
      · rw [hwin] at hlim0
        simp only [List.flatten, List.flatten_nil, List.append_nil, List.map_cons,
          List.sum_cons, hwin, hfull]
        omega
    · rw [if_neg hguard]
      push_neg at hguard
      obtain ⟨htokne, hlimne⟩ := hguard
      have hrest1 : ∀ p ∈ rest, ytpl.ItemsFirst (ytpl.extractPageItems p) :=
        fun p hp => hfirst p (List.mem_cons_of_mem _ hp)
      have hrest2 : ∀ p ∈ rest.dropLast, ytpl.findNextToken (ytpl.extractPageItems p) ≠ "" := by
        intro p hp
        cases rest with
        | nil => simp at hp
        | cons r2 rs =>
          refine htok p ?_
          rw [List.dropLast_cons₂]
          exact List.mem_cons_of_mem _ hp
      have ih := parsePage2Batches_flatten_length rest
        (limit - (ytpl.decodeWindow limit (ytpl.extractPageItems resp)).length) hrest1 hrest2
      rw [hwin] at ih hlimne
      simp only [List.flatten_cons, List.length_append, List.map_cons, List.sum_cons,
        hwin, hfull, ih]
      omega

lemma parsePage2Batches_no_overfetch :
    ∀ (pages : List (List (String × JSON))) (limit : Nat), 1 ≤ limit →
      ∀ j, j < (ytpl.parsePage2Batches limit pages).length →
        ((ytpl.parsePage2Batches limit pages).take j).flatten.length < limit
  | [], limit, _, j => by simp [ytpl.parsePage2Batches]
  | resp :: rest, limit, hlim, j => by
    intro hj
    simp only [ytpl.parsePage2Batches] at hj ⊢
    by_cases hguard : ytpl.findNextToken (ytpl.extractPageItems resp) = ""
        ∨ limit - (ytpl.decodeWindow limit (ytpl.extractPageItems resp)).length = 0
    · rw [if_pos hguard] at hj ⊢
      have hj0 : j = 0 := by simpa using hj
      subst hj0
      simpa using hlim
    · rw [if_neg hguard] at hj ⊢
      push_neg at hguard
      obtain ⟨_, hlimne⟩ := hguard
      cases j with
      | zero => simpa using hlim
      | succ k =>
        simp only [List.take_succ_cons, List.flatten_cons, List.length_append]
        have hklt : k < (ytpl.parsePage2Batches
            (limit - (ytpl.decodeWindow limit (ytpl.extractPageItems resp)).length)
            rest).length := by
          simpa using hj
        have ih := parsePage2Batches_no_overfetch rest
          (limit - (ytpl.decodeWindow limit (ytpl.extractPageItems resp)).length)
          (by omega) k hklt
        have hd := decodeWindow_length_le limit (ytpl.extractPageItems resp)
        omega

lemma parsePage2Batches_take_flatten_le :
    ∀ (pages : List (List (String × JSON))) (limit : Nat) (j : Nat),
      ((ytpl.parsePage2Batches limit pages).take j).flatten.length ≤ limit
  | [], limit, j => by simp [ytpl.parsePage2Batches]
  | resp :: rest, limit, j => by
    simp only [ytpl.parsePage2Batches]
    by_cases hguard : ytpl.findNextToken (ytpl.extractPageItems resp) = ""
        ∨ limit - (ytpl.decodeWindow limit (ytpl.extractPageItems resp)).length = 0
    · rw [if_pos hguard]
      cases j with
      | zero => simp
      | succ k =>
        simp only [List.take_succ_cons, List.take_nil, List.flatten_cons, List.flatten_nil,
          List.append_nil, List.length_append, List.length_nil]
        simpa using decodeWindow_length_le limit (ytpl.extractPageItems resp)
    · rw [if_neg hguard]
      cases j with
      | zero => simp
      | succ k =>
        simp only [List.take_succ_cons, List.flatten_cons, List.length_append]
        have ih := parsePage2Batches_take_flatten_le rest
          (limit - (ytpl.decodeWindow limit (ytpl.extractPageItems resp)).length) k
        have hd := decodeWindow_length_le limit (ytpl.extractPageItems resp)
        push_neg at hguard
        omega

lemma getPlaylistBatches_take_flatten_le
    (limit : Nat) (rawVideoList : List JSON) (pages : List (List (String × JSON))) (j : Nat) :
    ((ytpl.getPlaylistBatches limit rawVideoList pages).take j).flatten.length ≤ limit := by
  unfold ytpl.getPlaylistBatches
  by_cases hguard : ytpl.findNextToken rawVideoList = ""
      ∨ limit - (ytpl.decodeWindow limit rawVideoList).length = 0
  · rw [if_pos hguard]
    cases j with
    | zero => simp
    | succ k =>
      simp only [List.take_succ_cons, List.take_nil, List.flatten_cons, List.flatten_nil,
        List.append_nil, List.length_append, List.length_nil]
      simpa using decodeWindow_length_le limit rawVideoList
  · rw [if_neg hguard]
    cases j with
    | zero => simp
    | succ k =>
      simp only [List.take_succ_cons, List.flatten_cons, List.length_append]
      have ih := parsePage2Batches_take_flatten_le pages
        (limit - (ytpl.decodeWindow limit rawVideoList).length) k
      have hd := decodeWindow_length_le limit rawVideoList
      omega

/-- C2 (amended): the pagination walker truncates each page to the remaining
budget counted over RAW entries, so an undecodable entry occupying a window
position consumes budget space; when every fetched page lists its decodable
items before any undecodable entry and every non-final fetched page carries a
nonempty continuation token, the walker returns exactly min(N, a+b+c+...)
items over pages fully decoding to counts a, b, c, ..., concatenated in fetch
order; and in ALL cases - for every input, with no shape condition - it never
fetches a further page once the running total of returned items has reached
N: before every fetched page the total so far is below N. -/
theorem C2_pagination_budget_semantics :
    ∀ (limit : Nat) (pages : List (List (String × JSON))),
      1 ≤ limit →
      ((∀ p ∈ pages, ytpl.ItemsFirst (ytpl.extractPageItems p)) →
       (∀ p ∈ pages.dropLast, ytpl.findNextToken (ytpl.extractPageItems p) ≠ "") →
       (ytpl.parsePage2Batches limit pages).flatten.length
          = min limit ((pages.map ytpl.pageFullCount).sum))
      ∧ (∀ j, j < (ytpl.parsePage2Batches limit pages).length →
          ((ytpl.parsePage2Batches limit pages).take j).flatten.length < limit) :=
  fun limit pages h1 =>
    ⟨fun h2 h3 => parsePage2Batches_flatten_length pages limit h2 h3,
     fun j hj => parsePage2Batches_no_overfetch pages limit h1 j hj⟩

/-- C2 witness: a page decoding to two items under budget 3 (decodable items
first, no continuation marker) returns min(3, 2) = 2 items; and on the
counterexample input - a leading marker page violating ItemsFirst - the
unconditional conjunct still applies: before the second fetched page the
running total 0 is below the budget 1. -/
theorem C2_pagination_budget_semantics_witness :
    ((ytpl.parsePage2Batches 3
      [[("onResponseReceivedActions", JSON.arr [JSON.obj
        [("appendContinuationItemsAction", JSON.obj
          [("continuationItems", JSON.arr
            [JSON.obj [("playlistVideoRenderer", JSON.obj [("videoId", JSON.str "a")])],
             JSON.obj [("playlistVideoRenderer", JSON.obj [("videoId", JSON.str "b")])]])])]])]]
      ).flatten.length
    = min 3 (([[("onResponseReceivedActions", JSON.arr [JSON.obj
        [("appendContinuationItemsAction", JSON.obj
          [("continuationItems", JSON.arr
            [JSON.obj [("playlistVideoRenderer", JSON.obj [("videoId", JSON.str "a")])],
             JSON.obj [("playlistVideoRenderer", JSON.obj [("videoId", JSON.str "b")])]])])]])]].map
        ytpl.pageFullCount).sum))
    ∧ ((ytpl.parsePage2Batches 1
      [[("onResponseReceivedActions", JSON.arr [JSON.obj
        [("appendContinuationItemsAction", JSON.obj
          [("continuationItems", JSON.arr
            [JSON.obj [("continuationItemRenderer", JSON.obj
              [("continuationEndpoint", JSON.obj
                [("continuationCommand", JSON.obj [("token", JSON.str "NEXT")])])])],
             JSON.obj [("playlistVideoRenderer", JSON.obj
               [("videoId", JSON.str "abc")])]])])]])],
       [("onResponseReceivedActions", JSON.arr [])]]).take 1).flatten.length < 1 := by
  constructor
  · refine (C2_pagination_budget_semantics 3 _ (by norm_num)).1 ?_ ?_
    · intro p hp
      simp only [List.mem_singleton] at hp
      subst hp
      exact ⟨[JSON.obj [("playlistVideoRenderer", JSON.obj [("videoId", JSON.str "a")])],
              JSON.obj [("playlistVideoRenderer", JSON.obj [("videoId", JSON.str "b")])]],
             [], rfl, by decide, by decide⟩
    · intro p hp
      simp at hp
  · exact (C2_pagination_budget_semantics 1 _ (by norm_num)).2 1 (by decide)

/-- C2 counterexample: a single fetched page whose raw list is a leading
continuation marker followed by one decodable video, under requested limit 1.
The full raw list decodes to 1 item, so the claim requires min(1, 1) = 1
returned item, but the raw-entry budget window [marker] yields 0 items. -/
theorem C2_counterexample :
    ((ytpl.parsePage2Batches 1
      [[("onResponseReceivedActions", JSON.arr [JSON.obj
        [("appendContinuationItemsAction", JSON.obj
          [("continuationItems", JSON.arr
            [JSON.obj [("continuationItemRenderer", JSON.obj
              [("continuationEndpoint", JSON.obj
                [("continuationCommand", JSON.obj [("token", JSON.str "NEXT")])])])],
             JSON.obj [("playlistVideoRenderer", JSON.obj
               [("videoId", JSON.str "abc")])]])])]])]]).flatten.length = 0)
    ∧ ytpl.pageFullCount
        [("onResponseReceivedActions", JSON.arr [JSON.obj
          [("appendContinuationItemsAction", JSON.obj
            [("continuationItems", JSON.arr
              [JSON.obj [("continuationItemRenderer", JSON.obj
                [("continuationEndpoint", JSON.obj
                  [("continuationCommand", JSON.obj [("token", JSON.str "NEXT")])])])],
               JSON.obj [("playlistVideoRenderer", JSON.obj
                 [("videoId", JSON.str "abc")])]])])]])] = 1 := by
  decide

/-- C3: the accumulated item count across the first page and every
continuation page never exceeds the requested limit N >= 1: every prefix of
the per-page batches of a playlist run flattens to at most N items. -/
theorem C3_accumulated_count_never_exceeds_limit :
    ∀ (limit : Nat) (rawVideoList : List JSON) (pages : List (List (String × JSON))),
      1 ≤ limit →
      ∀ j : Nat,
        ((ytpl.getPlaylistBatches limit rawVideoList pages).take j).flatten.length ≤ limit :=
  fun limit rawVideoList pages _ j =>
    getPlaylistBatches_take_flatten_le limit rawVideoList pages j

/-- C3 witness: three decodable raw videos under limit 2 yield at most (in
fact exactly) 2 items. -/
theorem C3_accumulated_count_never_exceeds_limit_witness :
    ((ytpl.getPlaylistBatches 2
        [JSON.obj [("playlistVideoRenderer", JSON.obj [("videoId", JSON.str "a")])],
         JSON.obj [("playlistVideoRenderer", JSON.obj [("videoId", JSON.str "b")])],
         JSON.obj [("playlistVideoRenderer", JSON.obj [("videoId", JSON.str "c")])]]
        []).take 5).flatten.length ≤ 2
    ∧ ((ytpl.getPlaylistBatches 2
        [JSON.obj [("playlistVideoRenderer", JSON.obj [("videoId", JSON.str "a")])],
         JSON.obj [("playlistVideoRenderer", JSON.obj [("videoId", JSON.str "b")])],
         JSON.obj [("playlistVideoRenderer", JSON.obj [("videoId", JSON.str "c")])]]
        []).take 5).flatten.length = 2 :=
  ⟨C3_accumulated_count_never_exceeds_limit 2 _ [] (by norm_num) 5, by decide⟩

/-- C5: with no initial-data JSON tree recovered (page fetch and fallback
browse POST both yielded none), getPlaylist returns the unknown-playlist
error immediately for every remaining retry budget, including the initial 3:
the nil map indexes to nil in the sidebar check at line 421, which precedes
the nil-JSON retry check at line 425, so the retry branch and the
exhausted-retries error are unreachable for every input. -/
theorem C5_missing_json_never_retries :
    (∀ retries : Nat,
        ytpl.playlistRetryDecision none retries = .failUnknownPlaylist)
    ∧ ytpl.playlistRetryDecision none ytpl.GetPlaylistRetries = .failUnknownPlaylist
    ∧ (∀ (json : Option (List (String × JSON))) (retries k : Nat),
        ytpl.playlistRetryDecision json retries ≠ .retryCall k
        ∧ ytpl.playlistRetryDecision json retries ≠ .failUnsupportedAfterRetries) := by
  refine ⟨fun retries => rfl, rfl, ?_⟩
  intro json retries k
  cases json with
  | none => exact ⟨by simp [ytpl.playlistRetryDecision, ytpl.sidebarAbsent],
                   by simp [ytpl.playlistRetryDecision, ytpl.sidebarAbsent]⟩
  | some kvs =>
    unfold ytpl.playlistRetryDecision
    split <;> simp

lemma setQueryKey_find_mapped (k v : String) :
    ∀ q : List (String × String), q.any (fun kv => kv.1 = k) = true →
      (q.map fun kv => if kv.1 = k then (k, v) else kv).find? (fun kv => kv.1 = k)
        = some (k, v) := by
  intro q
  induction q with
  | nil => simp
  | cons kv q ih =>
    intro hany
    by_cases hk : kv.1 = k
    · simp [hk]
    · have hany2 : q.any (fun kv => kv.1 = k) = true := by
        simpa [hk] using hany
      simp [hk, ih hany2]

lemma setQueryKey_find_appended (k v : String) :
    ∀ q : List (String × String), q.any (fun kv => kv.1 = k) = false →
      (q ++ [(k, v)]).find? (fun kv => kv.1 = k) = some (k, v) := by
  intro q
  induction q with
  | nil => simp
  | cons kv q ih =>
    intro hany
    have hk : ¬ kv.1 = k := by
      intro hk
      simp [hk] at hany
    have hany2 : q.any (fun kv => kv.1 = k) = false := by
      simpa [hk] using hany
    simp [hk, ih hany2]

lemma setQueryKey_find (q : List (String × String)) (k v : String) :
    (ytpl.setQueryKey q k v).find? (fun kv => kv.1 = k) = some (k, v) := by
  unfold ytpl.setQueryKey
  split
  case isTrue hany => exact setQueryKey_find_mapped k v q hany
  case isFalse hany =>
    refine setQueryKey_find_appended k v q ?_
    simp only [Bool.not_eq_true] at hany
    exact hany

lemma checkArgs_limit_pos (plistID : String) (options : Option ytpl.Options) :
    0 < (ytpl.checkArgs plistID options).Limit := by
  unfold ytpl.checkArgs
  cases options with
  | none => simp
  | some o =>
    simp only [Option.getD_some]
    split <;> simp_all

lemma checkArgs_some_limit (plistID : String) (o : ytpl.Options) :
    (ytpl.checkArgs plistID (some o)).Limit = if o.Limit ≤ 0 then 100 else o.Limit := by
  unfold ytpl.checkArgs
  simp only [Option.getD_some]
  split <;> rfl

/-- C10: a playlist run mutates the caller-supplied options in place:
argument checking writes the resolved playlist ID under the "list" query key,
pagination decrements Limit by the number of items returned at each page, so
the caller's options afterwards hold the leftover budget, which is never
negative (0 exactly when the budget was exhausted); a second call reusing the
mutated options runs with that leftover limit, or the default 100 when the
leftover is <= 0. -/
theorem C10_getPlaylist_mutates_options :
    ∀ (plistID plistID2 : String) (options : Option ytpl.Options)
      (rawVideoList : List JSON) (pages : List (List (String × JSON))),
      (ytpl.getPlaylistRun plistID options rawVideoList pages).2.Limit
          = (ytpl.checkArgs plistID options).Limit
            - (ytpl.getPlaylistRun plistID options rawVideoList pages).1.length
      ∧ (((ytpl.getPlaylistRun plistID options rawVideoList pages).2.Query.getD []).find?
            fun kv => kv.1 = "list") = some ("list", plistID)
      ∧ 0 ≤ (ytpl.getPlaylistRun plistID options rawVideoList pages).2.Limit
      ∧ (ytpl.checkArgs plistID2
            (some (ytpl.getPlaylistRun plistID options rawVideoList pages).2)).Limit
          = (if (ytpl.getPlaylistRun plistID options rawVideoList pages).2.Limit ≤ 0 then 100
             else (ytpl.getPlaylistRun plistID options rawVideoList pages).2.Limit) := by
  intro plistID plistID2 options rawVideoList pages
  refine ⟨rfl, ?_, ?_, ?_⟩
  · simp only [ytpl.getPlaylistRun, ytpl.checkArgs, Option.getD_some]
    exact setQueryKey_find _ "list" plistID
  · have hlen := getPlaylistBatches_take_flatten_le
      (ytpl.checkArgs plistID options).Limit.toNat rawVideoList pages
      (ytpl.getPlaylistBatches (ytpl.checkArgs plistID options).Limit.toNat
        rawVideoList pages).length
    rw [List.take_length] at hlen
    have hpos := checkArgs_limit_pos plistID options
    simp only [ytpl.getPlaylistRun]
    omega
  · exact checkArgs_some_limit plistID2 _

lemma listStarts_decomp : ∀ (sep cs : List Char), listStarts sep cs = true →
    cs = sep ++ cs.drop sep.length
  | [], cs, _ => by simp
  | p :: ps, [], h => by simp [listStarts] at h
  | p :: ps, c :: cs, h => by
    simp only [listStarts, Bool.and_eq_true, decide_eq_true_eq] at h
    obtain ⟨hpc, hrest⟩ := h
    have ih := listStarts_decomp ps cs hrest
    simp only [List.length_cons, List.drop_succ_cons, List.cons_append]
    rw [hpc, ← ih]

lemma splitOnceList_decomp (sep : List Char) : ∀ {cs a b : List Char},
    ytpl.splitOnceList sep cs = some (a, b) → cs = a ++ sep ++ b
  | [], a, b, h => by
    unfold ytpl.splitOnceList at h
    split at h
    · rename_i hst
      obtain ⟨ha, hb⟩ : a = [] ∧ b = [] := by
        constructor <;> (cases h; rfl)
      subst ha; subst hb
      have := listStarts_decomp sep [] hst
      simpa using this.symm
    · simp at h
  | c :: rest, a, b, h => by
    unfold ytpl.splitOnceList at h
    split at h
    · rename_i hst
      obtain ⟨ha, hb⟩ : a = [] ∧ b = (c :: rest).drop sep.length := by
        constructor <;> (cases h; rfl)
      subst ha; subst hb
      simpa using listStarts_decomp sep (c :: rest) hst
    · rename_i hst
      cases hrec : ytpl.splitOnceList sep rest with
      | none => rw [hrec] at h; simp at h
      | some pr =>
        rw [hrec] at h
        have hpair : (c :: pr.1, pr.2) = (a, b) := Option.some.inj h
        have ha : a = c :: pr.1 := (congrArg Prod.fst hpair).symm
        have hb : b = pr.2 := (congrArg Prod.snd hpair).symm
        subst ha; subst hb
        have ih := @splitOnceList_decomp sep rest pr.1 pr.2 (by rw [hrec])
        simp [ih]

lemma colon_mem_of_host {s : String} {u : ytpl.GoURL}
    (h1 : ytpl.parseGoURL s = some u) (h2 : u.host ≠ "") : ':' ∈ s.toList := by
  simp only [ytpl.parseGoURL] at h1
  split at h1
  · simp at h1
  · split at h1
    · rename_i hsplit
      exfalso
      apply h2
      cases h1
      rfl
    · rename_i fst rest hsplit
      have hdec := @splitOnceList_decomp [':', '/', '/'] s.toList fst rest hsplit
      rw [hdec]
      simp

lemma playlistRegexMatch_all_id {s : String} (h : ytpl.playlistRegexMatch s = true) :
    ∀ c ∈ s.toList, ytpl.isIDChar c = true := by
  unfold ytpl.playlistRegexMatch at h
  split at h
  · rename_i c1 c2 rest heq
    simp only [Bool.and_eq_true, Bool.or_eq_true, decide_eq_true_eq, List.all_eq_true] at h
    obtain ⟨⟨⟨hpre, hall⟩, _⟩, _⟩ := h
    intro c hc
    rw [heq] at hc
    simp only [List.mem_cons] at hc
    rcases hc with rfl | rfl | hc
    · have hcs : c = 'F' ∨ c = 'P' ∨ c = 'U' ∨ c = 'L' ∨ c = 'R' := by tauto
      rcases hcs with rfl | rfl | rfl | rfl | rfl <;> decide
    · have hcs : c = 'L' ∨ c = 'U' ∨ c = 'D' := by tauto
      rcases hcs with rfl | rfl | rfl <;> decide
    · exact hall c hc
  · simp at h

lemma albumRegexMatch_all_id {s : String} (h : ytpl.albumRegexMatch s = true) :
    ∀ c ∈ s.toList, ytpl.isIDChar c = true := by
  unfold ytpl.albumRegexMatch at h
  split at h
  · rename_i rest heq
    simp only [Bool.and_eq_true, decide_eq_true_eq, List.all_eq_true] at h
    obtain ⟨hall, _⟩ := h
    intro c hc
    rw [heq] at hc
    simp only [List.mem_cons] at hc
    rcases hc with rfl | rfl | rfl | rfl | rfl | rfl | rfl | rfl | hc
    · decide
    · decide
    · decide
    · decide
    · decide
    · decide
    · decide
    · decide
    · exact hall c hc
  · simp at h

lemma channelRegexMatch_all_id {s : String} (h : ytpl.channelRegexMatch s = true) :
    ∀ c ∈ s.toList, ytpl.isIDChar c = true := by
  unfold ytpl.channelRegexMatch at h
  split at h
  · rename_i rest heq
    simp only [Bool.and_eq_true, decide_eq_true_eq, List.all_eq_true] at h
    obtain ⟨⟨hall, _⟩, _⟩ := h
    intro c hc
    rw [heq] at hc
    simp only [List.mem_cons] at hc
    rcases hc with rfl | rfl | hc
    · decide
    · decide
    · exact hall c hc
  · simp at h

lemma regexes_false_of_colon (s : String) (h : ':' ∈ s.toList) :
    ytpl.playlistRegexMatch s = false ∧ ytpl.albumRegexMatch s = false
    ∧ ytpl.channelRegexMatch s = false := by
  refine ⟨?_, ?_, ?_⟩
  · by_contra hb
    rw [Bool.not_eq_false] at hb
    have := playlistRegexMatch_all_id hb ':' h
    simp [ytpl.isIDChar] at this
  · by_contra hb
    rw [Bool.not_eq_false] at hb
    have := albumRegexMatch_all_id hb ':' h
    simp [ytpl.isIDChar] at this
  · by_contra hb
    rw [Bool.not_eq_false] at hb
    have := channelRegexMatch_all_id hb ':' h
    simp [ytpl.isIDChar] at this

lemma hasRDStart_shape {s : String} (h : ytpl.hasRDStart s = true) :
    ∃ rest, s.toList = 'R' :: 'D' :: rest := by
  unfold ytpl.hasRDStart at h
  split at h
  · rename_i rest heq
    exact ⟨rest, heq⟩
  · simp at h

lemma albumRegexMatch_false_of_RD {s : String} (h : ytpl.hasRDStart s = true) :
    ytpl.albumRegexMatch s = false := by
  obtain ⟨rest, heq⟩ := hasRDStart_shape h
  by_contra hb
  rw [Bool.not_eq_false] at hb
  unfold ytpl.albumRegexMatch at hb
  rw [heq] at hb
  simp at hb

/-- C6 (amended): an RD-prefixed list query parameter on a known host is
rejected with the InputError "mixes not supported" exactly when it does not
itself match the playlist-ID shape; an RD parameter of playlist-ID shape (RD
followed by 16 to 41 ID characters) is returned as a valid ID, since the
playlist regex itself admits the RD prefix.  The literal ID
"PLpas7-jjCh0Z7-t9yqhg3ibXTgeZhtH-G" resolves to itself, as does a URL
carrying it as its list parameter, and list=RDxxxx (not of playlist-ID shape)
fails with "mixes not supported". -/
theorem C6_mix_rejection_shape_dependent :
    (∀ (s : String) (u : ytpl.GoURL) (p : String),
      ytpl.parseGoURL s = some u →
      ytpl.YTHosts.contains u.host = true →
      ytpl.queryGet u.query "list" = some p →
      ytpl.hasRDStart p = true →
      ytpl.GetPlaylistID s =
        (if ytpl.playlistRegexMatch p = true then .ok p else .fail "mixes not supported"))
    ∧ ytpl.GetPlaylistID "PLpas7-jjCh0Z7-t9yqhg3ibXTgeZhtH-G"
        = .ok "PLpas7-jjCh0Z7-t9yqhg3ibXTgeZhtH-G"
    ∧ ytpl.GetPlaylistID
          "https://www.youtube.com/playlist?list=PLpas7-jjCh0Z7-t9yqhg3ibXTgeZhtH-G"
        = .ok "PLpas7-jjCh0Z7-t9yqhg3ibXTgeZhtH-G"
    ∧ ytpl.GetPlaylistID "https://www.youtube.com/watch?list=RDxxxx"
        = .fail "mixes not supported" := by
  refine ⟨?_, by decide, by decide, by decide⟩
  intro s u p h1 h2 h3 h4
  have hhost : u.host ≠ "" := by
    intro h0
    rw [h0] at h2
    exact absurd h2 (by decide)
  have hcolon := colon_mem_of_host h1 hhost
  obtain ⟨hpl, hal, hch⟩ := regexes_false_of_colon s hcolon
  have hs : s ≠ "" := by
    intro h0
    rw [h0] at hcolon
    simp at hcolon
  have hal2 := albumRegexMatch_false_of_RD h4
  have h2m : u.host ∈ ytpl.YTHosts := by simpa using h2
  simp [ytpl.GetPlaylistID, hpl, hal, hch, h1, h2m, h3, h4, hal2, hs]

/-- C6 witness: the URL with list=RDxxxx satisfies every hypothesis of the
amended statement (its parse, host and RD-prefixed parameter computed
concretely), and since RDxxxx is not of playlist-ID shape the resolution
fails with "mixes not supported". -/
theorem C6_mix_rejection_shape_dependent_witness :
    ytpl.GetPlaylistID "https://www.youtube.com/watch?list=RDxxxx"
      = (if ytpl.playlistRegexMatch "RDxxxx" = true then .ok "RDxxxx"
         else .fail "mixes not supported") :=
  C6_mix_rejection_shape_dependent.1
    "https://www.youtube.com/watch?list=RDxxxx"
    { host := "www.youtube.com", path := "/watch", query := [("list", "RDxxxx")] }
    "RDxxxx" (by decide) (by decide) (by decide) (by decide)

/-- C6 counterexample: a URL on a known host whose list parameter is the
RD-prefixed mix ID RDabcdefghijklmnop (RD followed by 16 ID characters, hence
of playlist-ID shape) resolves to that ID instead of failing with
"mixes not supported", and the same string passed directly as an ID is also
returned unchanged: the playlist regex itself admits the RD prefix. -/
theorem C6_counterexample :
    ytpl.GetPlaylistID "https://www.youtube.com/watch?list=RDabcdefghijklmnop"
      = .ok "RDabcdefghijklmnop"
    ∧ ytpl.GetPlaylistID "RDabcdefghijklmnop" = .ok "RDabcdefghijklmnop" := by
  decide

lemma searchItem_type_update_desc (s : ytsr.SearchItem) (d : String) :
    ({ s with Description := d } : ytsr.SearchItem).type = s.type := rfl

lemma searchItem_type_update_author (s : ytsr.SearchItem) (a : Option ytsr.Author) :
    ({ s with Author := a } : ytsr.SearchItem).type = s.type := rfl

lemma applyVideoID_type (obj : List (String × JSON)) (s : ytsr.SearchItem) :
    (ytsr.applyVideoID obj s).type = s.type := by
  simp only [ytsr.applyVideoID]
  repeat' split
  all_goals rfl

lemma applyVideoTitle_type (obj : List (String × JSON)) (s : ytsr.SearchItem) :
    (ytsr.applyVideoTitle obj s).type = s.type := by
  simp only [ytsr.applyVideoTitle]
  repeat' split
  all_goals rfl

lemma applyVideoThumbnails_type (obj : List (String × JSON)) (s : ytsr.SearchItem) :
    (ytsr.applyVideoThumbnails obj s).type = s.type := by
  simp only [ytsr.applyVideoThumbnails]
  repeat' split
  all_goals rfl

lemma applyVideoViews_type (obj : List (String × JSON)) (s : ytsr.SearchItem) :
    (ytsr.applyVideoViews obj s).type = s.type := by
  simp only [ytsr.applyVideoViews]
  repeat' split
  all_goals rfl

lemma applyVideoDuration_type (obj : List (String × JSON)) (s : ytsr.SearchItem) :
    (ytsr.applyVideoDuration obj s).type = s.type := by
  simp only [ytsr.applyVideoDuration]
  repeat' split
  all_goals rfl

lemma applyVideoUploadedAt_type (obj : List (String × JSON)) (s : ytsr.SearchItem) :
    (ytsr.applyVideoUploadedAt obj s).type = s.type := by
  simp only [ytsr.applyVideoUploadedAt]
  repeat' split
  all_goals rfl

lemma applyVideoBadges_type (obj : List (String × JSON)) (s : ytsr.SearchItem) :
    (ytsr.applyVideoBadges obj s).type = s.type := by
  simp only [ytsr.applyVideoBadges]
  repeat' split
  all_goals rfl

lemma applyVideoIsLive_type (s : ytsr.SearchItem) :
    (ytsr.applyVideoIsLive s).type = s.type := by
  simp only [ytsr.applyVideoIsLive]
  repeat' split
  all_goals rfl

/-- C4 (amended): the search item decoder scans the object's keys in map
iteration order and acts at the first key matching a switch case, so the
result for an object carrying several known keys depends on that order: when
the first known key is videoRenderer (with an object value), the object
decodes as parseVideo does, a video; an object none of whose keys is a
result-producing case (videoRenderer, playlistRenderer, gridVideoRenderer,
lockupViewModel) always decodes to no item, in particular one whose only
renderer key is channelRenderer. -/
theorem C4_dispatch_first_key_wins :
    (∀ (pre post vr : List (String × JSON)),
      (∀ kv ∈ pre, kv.1 ≠ "videoRenderer" ∧ kv.1 ≠ "playlistRenderer"
        ∧ kv.1 ≠ "gridVideoRenderer" ∧ kv.1 ≠ "channelRenderer"
        ∧ kv.1 ≠ "lockupViewModel" ∧ kv.1 ≠ "gridShelfViewModel") →
      ytsr.parseItem (JSON.obj (pre ++ ("videoRenderer", JSON.obj vr) :: post))
        = (ytsr.parseVideo vr).map some)
    ∧ (∀ (vr : List (String × JSON)) (s : ytsr.SearchItem),
        ytsr.parseVideo vr = .value s → s.type = "video")
    ∧ (∀ kvs : List (String × JSON),
      (∀ kv ∈ kvs, kv.1 ≠ "videoRenderer" ∧ kv.1 ≠ "playlistRenderer"
        ∧ kv.1 ≠ "gridVideoRenderer" ∧ kv.1 ≠ "lockupViewModel") →
      ytsr.parseItem (JSON.obj kvs) = .value none) := by
  refine ⟨?_, ?_, ?_⟩
  · intro pre post vr hpre
    show ytsr.parseItemLoop (pre ++ ("videoRenderer", JSON.obj vr) :: post)
      = (ytsr.parseVideo vr).map some
    induction pre with
    | nil => simp [ytsr.parseItemLoop]
    | cons kv pre ih =>
      obtain ⟨h1, h2, h3, h4, h5, h6⟩ := hpre kv (List.mem_cons_self _ _)
      rw [List.cons_append]
      show (if kv.1 = "videoRenderer" then _ else _) = _
      simp only [ytsr.parseItemLoop, h1, h2, h3, h4, h5, h6, if_false]
      exact ih fun kv hk => hpre kv (List.mem_cons_of_mem _ hk)
  · intro vr s h
    unfold ytsr.parseVideo at h
    cases hd : ytsr.descOf vr with
    | panicked => rw [hd] at h; exact absurd h (by simp)
    | value desc =>
      rw [hd] at h
      have hs := GoResult.value.inj h
      subst hs
      simp only [applyVideoIsLive_type, applyVideoBadges_type,
        searchItem_type_update_author, applyVideoUploadedAt_type, applyVideoDuration_type,
        applyVideoViews_type, searchItem_type_update_desc, applyVideoThumbnails_type,
        applyVideoTitle_type, applyVideoID_type]
  · intro kvs hkvs
    show ytsr.parseItemLoop kvs = .value none
    induction kvs with
    | nil => rfl
    | cons kv kvs ih =>
      obtain ⟨h1, h2, h3, h4⟩ := hkvs kv (List.mem_cons_self _ _)
      by_cases hch : kv.1 = "channelRenderer"
      · simp [ytsr.parseItemLoop, h1, h2, h3, hch]
      · by_cases hsh : kv.1 = "gridShelfViewModel"
        · simp [ytsr.parseItemLoop, h1, h2, h3, hch, h4, hsh]
        · simp only [ytsr.parseItemLoop, h1, h2, h3, hch, h4, hsh, if_false]
          exact ih fun kv hk => hkvs kv (List.mem_cons_of_mem _ hk)

/-- C4 witness: with an unknown key before videoRenderer the object decodes
as a video; an object whose only key is channelRenderer decodes to no item. -/
theorem C4_dispatch_first_key_wins_witness :
    ytsr.parseItem (JSON.obj
        [("x", JSON.null), ("videoRenderer", JSON.obj [("videoId", JSON.str "abc")])])
      = (ytsr.parseVideo [("videoId", JSON.str "abc")]).map some
    ∧ ytsr.parseItem (JSON.obj [("channelRenderer", JSON.obj [])]) = .value none :=
  ⟨C4_dispatch_first_key_wins.1 [("x", JSON.null)] [] [("videoId", JSON.str "abc")]
      (by decide),
   C4_dispatch_first_key_wins.2.2 [("channelRenderer", JSON.obj [])] (by decide)⟩

/-- C4 counterexample: the same two bindings (videoRenderer carrying a video
object, channelRenderer) decode differently under their two map iteration
orders, so an object carrying both does NOT always decode as a video: with
channelRenderer iterated first the decode yields no item, with videoRenderer
first it yields an item. -/
theorem C4_counterexample :
    ytsr.parseItem (JSON.obj
        [("channelRenderer", JSON.obj []),
         ("videoRenderer", JSON.obj [("videoId", JSON.str "dQw4w9WgXcQ")])])
      = .value none
    ∧ ytsr.parseItem (JSON.obj
        [("videoRenderer", JSON.obj [("videoId", JSON.str "dQw4w9WgXcQ")]),
         ("channelRenderer", JSON.obj [])])
      ≠ .value none := by
  decide

/-- C8: decoding is NOT total: a videoRenderer key whose value is not an
object panics in the search item decoder (unchecked assertion at
src/pkg/ytsr/main.go line 500), and a selected best-thumbnail entry without
a string url panics in the playlist response extractor (unchecked assertions
at src/pkg/ytpl/parse.go lines 509-511); the same decoders return values on
well-shaped input. -/
theorem C8_unchecked_assertions_panic :
    ytsr.parseItem (JSON.obj [("videoRenderer", JSON.str "x")]) = .panicked
    ∧ ytpl.playlistBestThumbnail [JSON.obj [("width", JSON.num 100)]] = .panicked
    ∧ ytsr.parseItem (JSON.obj [("videoRenderer", JSON.obj [("videoId", JSON.str "abc")])])
        ≠ .panicked
    ∧ ytpl.playlistBestThumbnail
        [JSON.obj [("url", JSON.str "u"), ("width", JSON.num 100), ("height", JSON.num 50)]]
      = .value (some { URL := "u", Width := 100, Height := 50 }) := by
  decide

/-- C1 (amended): the initial-data page fetch is performed iff the call is
NOT in safe-search mode or either cached field is empty: a non-safe-search
call always issues its own initial fetch (so two consecutive ones issue two,
not one), a safe-search call with a populated cache issues none, and any
call with an empty cached field fetches. -/
theorem C1_initial_fetch_iff_not_safe_or_cache_empty :
    ∀ (safeSearch : Bool) (cv pp : String) (fetchedVersion : Option String)
      (playlistParams : String),
      cv ≠ "" → pp ≠ "" →
      (ytsr.searchAttempt false { ClientVersion := cv, PlaylistParams := pp }
          fetchedVersion playlistParams).1 = true
      ∧ (ytsr.searchAttempt true { ClientVersion := cv, PlaylistParams := pp }
          fetchedVersion playlistParams).1 = false
      ∧ (∀ c : ytsr.Cache, c.ClientVersion = "" ∨ c.PlaylistParams = "" →
          (ytsr.searchAttempt safeSearch c fetchedVersion playlistParams).1 = true) := by
  intro safeSearch cv pp fetchedVersion playlistParams hcv hpp
  refine ⟨?_, ?_, ?_⟩
  · simp [ytsr.searchAttempt, ytsr.needsInitialRequest]
  · simp [ytsr.searchAttempt, ytsr.needsInitialRequest, hcv, hpp]
  · intro c hc
    rcases hc with hc | hc <;>
      simp [ytsr.searchAttempt, ytsr.needsInitialRequest, hc]

/-- C1 witness: with the populated default cache values, a non-safe-search
call fetches, a safe-search call does not, and an emptied client version
forces a fetch even in safe-search mode. -/
theorem C1_initial_fetch_iff_not_safe_or_cache_empty_witness :
    (ytsr.searchAttempt false
        { ClientVersion := "2.20240606.06.00", PlaylistParams := "EgIQAw%3D%3D" }
        none "").1 = true
    ∧ (ytsr.searchAttempt true
        { ClientVersion := "2.20240606.06.00", PlaylistParams := "EgIQAw%3D%3D" }
        none "").1 = false
    ∧ (ytsr.searchAttempt true { ClientVersion := "", PlaylistParams := "x" }
        none "").1 = true :=
  ⟨(C1_initial_fetch_iff_not_safe_or_cache_empty true "2.20240606.06.00" "EgIQAw%3D%3D"
      none "" (by decide) (by decide)).1,
   (C1_initial_fetch_iff_not_safe_or_cache_empty true "2.20240606.06.00" "EgIQAw%3D%3D"
      none "" (by decide) (by decide)).2.1,
   (C1_initial_fetch_iff_not_safe_or_cache_empty true "2.20240606.06.00" "EgIQAw%3D%3D"
      none "" (by decide) (by decide)).2.2
     { ClientVersion := "", PlaylistParams := "x" } (Or.inl rfl)⟩

/-- C1 counterexample: with the populated process-default cache, a
safe-search call issues NO initial-data fetch (the claim requires one), a
non-safe-search call DOES issue one even though the cache is populated, and
a second consecutive non-safe-search call issues another (two fetches in
total, where the claim requires exactly one between them); the cache stays
populated throughout. -/
theorem C1_counterexample :
    (ytsr.searchAttempt true ytsr.defaultCache (some "2.20240606.06.00") "EgIQAw%3D%3D").1
      = false
    ∧ (ytsr.searchAttempt false ytsr.defaultCache (some "2.20240606.06.00") "EgIQAw%3D%3D").1
      = true
    ∧ (ytsr.searchAttempt false
        (ytsr.searchAttempt false ytsr.defaultCache
          (some "2.20240606.06.00") "EgIQAw%3D%3D").2
        (some "2.20240606.06.00") "EgIQAw%3D%3D").1 = true
    ∧ (ytsr.searchAttempt false ytsr.defaultCache
        (some "2.20240606.06.00") "EgIQAw%3D%3D").2 = ytsr.defaultCache := by
  decide
